import Mathlib

/-!
Verification of the `tmn` masternode lifecycle module (`tmn/masternode.py`).

The Python module drives a Docker daemon through the docker-py client:
it provisions volumes/networks/containers and reconciles container power
state.  We embed the module shallowly: every call to the docker client is
performed through an abstract `Client` record (an arbitrary behaviour of
the external daemon), and the module's functions become computations in a
small state monad `M` that threads the daemon state, the ordered list of
display notifications (`Event`) and the ordered list of runtime API calls
(`Call`).  Python exceptions are modelled by `PyExc`; docker-py's
`NotFound` is a subclass of `APIError`, which `PyExc.isAPIError` records.

A concrete deterministic daemon model `dockerClient` over `DockerState`
(standard daemon semantics under the single-writer assumption of spec §5)
instantiates the abstract client for the functional claims.
-/

namespace Tmn

/-- Python exceptions relevant to the module: docker-py's `NotFound`,
any other `APIError`, and any exception that is not an `APIError`. -/
inductive PyExc where
  | notFound
  | apiError
  | otherExc
  deriving DecidableEq, Repr

/-- Whether the exception is (a subclass of) `docker.errors.APIError`.
In docker-py, `NotFound` derives from `APIError`. -/
def PyExc.isAPIError : PyExc → Bool
  | .notFound => true
  | .apiError => true
  | .otherExc => false

/-- One entry of a container spec's `volumes` mapping:
host path / volume name ↦ {bind target, access mode}. -/
structure VolumeMount where
  source : String
  bind : String
  mode : String
  deriving DecidableEq, Repr

/-- The declared configuration of one container (an entry of `CONTAINERS`). -/
structure ContainerSpec where
  image : String
  hostname : Option String
  name : String
  network : String
  volumes : List VolumeMount
  detach : Bool
  deriving DecidableEq, Repr

/-- A runtime API call issued to the docker client, as recorded in order. -/
inductive Call where
  | volumesGet (name : String)
  | volumesCreate (name : String)
  | networksGet (name : String)
  | networksCreate (name : String)
  | containersGet (name : String)
  | imagesPull (image : String)
  | containersCreate (spec : ContainerSpec)
  | containerReload (name : String)
  | containerStart (name : String)
  | containerStop (name : String)
  | containerUnpause (name : String)
  | pingCall
  deriving DecidableEq, Repr

/-- The keyword arguments accumulated by `_status_containers` for one
`display.status(**display_kwargs)` call. -/
structure StatusRecord where
  name : String
  statusColor : Option String
  status : Option String
  id : Option String
  deriving DecidableEq, Repr

/-- A display notification emitted by the module (the `tmn.display` sink). -/
inductive Event where
  | stepCreateVolume (name : String)
  | stepCreateNetwork (name : String)
  | stepCreateContainer (name : String)
  | stepCloseExists
  | stepCloseCreated
  | stepStartContainer (name : String)
  | stepStopContainer (name : String)
  | stepCloseStatus (status : String)
  | newline
  | subtitleCreateVolumes
  | subtitleCreateNetworks
  | subtitleCreateContainers
  | statusLine (r : StatusRecord)
  | errorDockerApi
  deriving DecidableEq, Repr

/-- The docker client facade, abstract over the daemon state `σ`.
Container handles are identified by container name (the module looks
containers up by name only).  Each operation either returns a value with
the updated daemon state or raises a `PyExc`; `reload` returns the
container's observed status, `shortId` is the cached `short_id`
attribute read (not an API call). -/
structure Client (σ : Type) where
  volumesGet : String → σ → Except PyExc σ
  volumesCreate : String → σ → Except PyExc σ
  networksGet : String → σ → Except PyExc σ
  networksCreate : String → σ → Except PyExc σ
  containersGet : String → σ → Except PyExc σ
  imagesPull : String → σ → Except PyExc σ
  containersCreate : ContainerSpec → σ → Except PyExc σ
  reload : String → σ → Except PyExc (String × σ)
  shortId : String → σ → String
  contStart : String → σ → Except PyExc σ
  contStop : String → σ → Except PyExc σ
  contUnpause : String → σ → Except PyExc σ
  ping : σ → Except PyExc Bool

/-- The state threaded through the module: the daemon state, the display
notifications emitted so far and the runtime API calls issued so far. -/
structure St (σ : Type) where
  dock : σ
  events : List Event
  calls : List Call

/-- Outcome of a computation: normal return, or a raised Python exception.
Either way the state reached so far is kept (side effects persist across
`try`/`except`). -/
inductive Res (σ : Type) (α : Type) where
  | ok : α → St σ → Res σ α
  | exn : PyExc → St σ → Res σ α

/-- The state of a result, whether it returned or raised. -/
def Res.st : Res σ α → St σ
  | .ok _ s => s
  | .exn _ s => s

/-- The computation monad of the embedding. -/
def M (σ : Type) (α : Type) : Type := St σ → Res σ α

def M.pure (a : α) : M σ α := fun s => .ok a s

def M.bind (x : M σ α) (f : α → M σ β) : M σ β := fun s =>
  match x s with
  | .ok a s' => f a s'
  | .exn e s' => .exn e s'

instance : Monad (M σ) where
  pure := M.pure
  bind := M.bind

/-- Emit a display notification. -/
def emit (e : Event) : M σ Unit := fun s =>
  .ok () { s with events := s.events ++ [e] }

/-- Issue a runtime API call: the call is recorded, then the client's
behaviour either yields a value and a new daemon state or raises. -/
def invoke (c : Call) (f : σ → Except PyExc (α × σ)) : M σ α := fun s =>
  match f s.dock with
  | .ok (a, d') => .ok a { s with dock := d', calls := s.calls ++ [c] }
  | .error e => .exn e { s with calls := s.calls ++ [c] }

/-- `invoke` for calls whose Python return value is unused. -/
def invokeU (c : Call) (f : σ → Except PyExc σ) : M σ Unit :=
  invoke c (fun d => (f d).map (fun d' => ((), d')))

/-- Read an attribute of the daemon state without an API call. -/
def readState (f : σ → α) : M σ α := fun s => .ok (f s.dock) s

/-- `try: body except NotFound: handler` — only `NotFound` is caught;
state changes made before the exception persist into the handler. -/
def tryNotFound (body : M σ α) (handler : M σ α) : M σ α := fun s =>
  match body s with
  | .ok a s' => .ok a s'
  | .exn .notFound s' => handler s'
  | .exn e s' => .exn e s'

/-- Run `step` on each element of a list in order (a Python `for` loop). -/
def runSteps (step : α → M σ Unit) : List α → M σ Unit
  | [] => M.pure ()
  | x :: xs => M.bind (step x) (fun _ => runSteps step xs)

/-! ## The declared resources (module-level constants of `masternode.py`) -/

def VOLUMES : List String := ["blockchain_data"]

def NETWORKS : List String := ["masternode"]

def metricsSpec : ContainerSpec :=
  { image := "tomochain/infra-telegraf:devnet"
    hostname := some "test"
    name := "metrics"
    network := "masternode"
    volumes :=
      [ { source := "/var/run/docker.sock", bind := "/var/run/docker.sock", mode := "ro" }
      , { source := "/sys", bind := "/rootfs/sys", mode := "ro" }
      , { source := "/proc", bind := "/rootfs/proc", mode := "ro" }
      , { source := "/etc", bind := "/rootfs/etc", mode := "ro" } ]
    detach := true }

def tomochainSpec : ContainerSpec :=
  { image := "tomochain/infra-tomochain:devnet"
    hostname := none
    name := "tomochain"
    network := "masternode"
    volumes := [ { source := "blockchain_data", bind := "/tomochain/data", mode := "rw" } ]
    detach := true }

/-- `CONTAINERS`: an ordered dict, key ↦ container spec, in declaration
order.  The declared names are pairwise distinct. -/
def CONTAINERS : List (String × ContainerSpec) :=
  [("metrics", metricsSpec), ("tomochain", tomochainSpec)]

/-! ## The module's functions

Each `_xxx` function of `masternode.py` becomes a definition below (the
leading underscore is dropped); the body of each Python `for` loop is
factored into its own `...Step` definition, run with `runSteps`. -/

/-- Loop body of `_create_volumes`. -/
def createVolumeStep (cl : Client σ) (volume : String) : M σ Unit :=
  M.bind (emit (.stepCreateVolume volume)) fun _ =>
  tryNotFound
    (M.bind (invokeU (.volumesGet volume) (cl.volumesGet volume)) fun _ =>
      emit .stepCloseExists)
    (M.bind (invokeU (.volumesCreate volume) (cl.volumesCreate volume)) fun _ =>
      emit .stepCloseCreated)

/-- `_create_volumes`. -/
def create_volumes (cl : Client σ) : M σ Unit :=
  M.bind (runSteps (createVolumeStep cl) VOLUMES) fun _ => emit .newline

/-- Loop body of `_create_networks`. -/
def createNetworkStep (cl : Client σ) (network : String) : M σ Unit :=
  M.bind (emit (.stepCreateNetwork network)) fun _ =>
  tryNotFound
    (M.bind (invokeU (.networksGet network) (cl.networksGet network)) fun _ =>
      emit .stepCloseExists)
    (M.bind (invokeU (.networksCreate network) (cl.networksCreate network)) fun _ =>
      emit .stepCloseCreated)

/-- `_create_networks`. -/
def create_networks (cl : Client σ) : M σ Unit :=
  M.bind (runSteps (createNetworkStep cl) NETWORKS) fun _ => emit .newline

/-- Loop body of `_get_containers`: look the container up by its declared
name; on `NotFound`, `pass` (the container handle is its name). -/
def getContainerStep (cl : Client σ) (value : ContainerSpec) : M σ (Option String) :=
  tryNotFound
    (M.bind (invokeU (.containersGet value.name) (cl.containersGet value.name)) fun _ =>
      M.pure (some value.name))
    (M.pure none)

/-- `_get_containers` over a declared list: the dict of found containers,
in declaration order (the declared names are distinct, so dict insertion
order is declaration order). -/
def get_containers_from (cl : Client σ) : List (String × ContainerSpec) → M σ (List String)
  | [] => M.pure []
  | (_, value) :: rest =>
      M.bind (getContainerStep cl value) fun c? =>
      M.bind (get_containers_from cl rest) fun others =>
      match c? with
      | some c => M.pure (c :: others)
      | none => M.pure others

/-- `_get_containers`. -/
def get_containers (cl : Client σ) : M σ (List String) :=
  get_containers_from cl CONTAINERS

/-- Loop body of `_create_containers`: get the container by name; on
`NotFound`, pull the declared image, then create the container. -/
def createContainerStep (cl : Client σ) (value : ContainerSpec) : M σ String :=
  M.bind (emit (.stepCreateContainer value.name)) fun _ =>
  tryNotFound
    (M.bind (invokeU (.containersGet value.name) (cl.containersGet value.name)) fun _ =>
      M.bind (emit .stepCloseExists) fun _ => M.pure value.name)
    (M.bind (invokeU (.imagesPull value.image) (cl.imagesPull value.image)) fun _ =>
      M.bind (invokeU (.containersCreate value) (cl.containersCreate value)) fun _ =>
      M.bind (emit .stepCloseCreated) fun _ => M.pure value.name)

/-- `_create_containers` over a declared list. -/
def create_containers_from (cl : Client σ) : List (String × ContainerSpec) → M σ (List String)
  | [] => M.pure []
  | (_, value) :: rest =>
      M.bind (createContainerStep cl value) fun c =>
      M.bind (create_containers_from cl rest) fun others =>
      M.pure (c :: others)

/-- `_create_containers`. -/
def create_containers (cl : Client σ) : M σ (List String) :=
  create_containers_from cl CONTAINERS

/-- Loop body of `_start_containers`: reload, classify the observed
status, act, reload again, report the refreshed status. -/
def startContainerStep (cl : Client σ) (container : String) : M σ Unit :=
  M.bind (emit (.stepStartContainer container)) fun _ =>
  M.bind (invoke (.containerReload container) (cl.reload container)) fun status =>
  M.bind
    (if status ∈ ["restarting", "running"] then M.pure ()
     else if status ∈ ["paused"] then
       invokeU (.containerUnpause container) (cl.contUnpause container)
     else if status ∈ ["created", "exited", "dead"] then
       invokeU (.containerStart container) (cl.contStart container)
     else M.pure ()) fun _ =>
  M.bind (invoke (.containerReload container) (cl.reload container)) fun status2 =>
  emit (.stepCloseStatus status2)

/-- `_start_containers`. -/
def start_containers (cl : Client σ) (containers : List String) : M σ Unit :=
  runSteps (startContainerStep cl) containers

/-- Loop body of `_stop_containers`. -/
def stopContainerStep (cl : Client σ) (container : String) : M σ Unit :=
  M.bind (emit (.stepStopContainer container)) fun _ =>
  M.bind (invoke (.containerReload container) (cl.reload container)) fun status =>
  M.bind
    (if status ∈ ["restarting", "running", "paused"] then
       invokeU (.containerStop container) (cl.contStop container)
     else if status ∈ ["created", "exited", "dead"] then M.pure ()
     else M.pure ()) fun _ =>
  M.bind (invoke (.containerReload container) (cl.reload container)) fun status2 =>
  emit (.stepCloseStatus status2)

/-- `_stop_containers`. -/
def stop_containers (cl : Client σ) (containers : List String) : M σ Unit :=
  runSteps (stopContainerStep cl) containers

/-- Loop body of `_status_containers`: `containers[name]` raises
`KeyError` when the name is absent from the found-containers dict, which
the `except KeyError` branch turns into a name-only record. -/
def statusContainerStep (cl : Client σ) (containers : List String) (name : String) :
    M σ Unit :=
  if containers.contains name then
    M.bind (invoke (.containerReload name) (cl.reload name)) fun status =>
    M.bind (readState (cl.shortId name)) fun sid =>
    emit (.statusLine
      { name := name
        statusColor := if status ∈ ["running"] then some "green" else none
        status := some status
        id := some sid })
  else
    emit (.statusLine { name := name, statusColor := none, status := none, id := none })

/-- `_status_containers`: one record per declared name, in declaration
order. -/
def status_containers (cl : Client σ) (containers : List String) : M σ Unit :=
  runSteps (statusContainerStep cl containers) (CONTAINERS.map (fun kv => kv.2.name))

/-- Outcome of a guarded top-level operation: normal return, process
termination via `sys.exit()` after the API-error notification, or an
uncaught exception propagating to the caller. -/
inductive GuardRes (σ : Type) where
  | ok : St σ → GuardRes σ
  | exited : St σ → GuardRes σ
  | raised : PyExc → St σ → GuardRes σ

/-- The state carried by a guard outcome. -/
def GuardRes.st : GuardRes σ → St σ
  | .ok s => s
  | .exited s => s
  | .raised _ s => s

/-- Whether the guarded operation returned normally. -/
def GuardRes.isOk : GuardRes σ → Bool
  | .ok _ => true
  | _ => false

/-- The `apierror` decorator: catch `docker.errors.APIError` (which
includes `NotFound`), display the docker API error and `sys.exit()`;
any other exception propagates. -/
def apierror (f : M σ α) : St σ → GuardRes σ := fun s =>
  match f s with
  | .ok _ s' => .ok s'
  | .exn e s' =>
      if e.isAPIError then
        .exited { s' with events := s'.events ++ [.errorDockerApi] }
      else
        .raised e s'

/-- Body of `start` (before the `apierror` decorator is applied). -/
def start_inner (cl : Client σ) : M σ Unit :=
  M.bind (emit .subtitleCreateVolumes) fun _ =>
  M.bind (create_volumes cl) fun _ =>
  M.bind (emit .subtitleCreateNetworks) fun _ =>
  M.bind (create_networks cl) fun _ =>
  M.bind (emit .subtitleCreateContainers) fun _ =>
  M.bind (create_containers cl) fun containers =>
  M.bind (emit .newline) fun _ =>
  start_containers cl containers

/-- `start`, with the `apierror` guard. -/
def start (cl : Client σ) : St σ → GuardRes σ :=
  apierror (start_inner cl)

/-- Body of `stop` (before the guard). -/
def stop_inner (cl : Client σ) : M σ Unit :=
  M.bind (get_containers cl) fun containers =>
  stop_containers cl containers

/-- `stop`, with the `apierror` guard. -/
def stop (cl : Client σ) : St σ → GuardRes σ :=
  apierror (stop_inner cl)

/-- Body of `status` (before the guard). -/
def status_inner (cl : Client σ) : M σ Unit :=
  M.bind (get_containers cl) fun containers =>
  status_containers cl containers

/-- `status`, with the `apierror` guard. -/
def status (cl : Client σ) : St σ → GuardRes σ :=
  apierror (status_inner cl)

/-- `_ping`: call the daemon's ping; any exception yields `False`. -/
def ping (cl : Client σ) : M σ Bool := fun s =>
  match cl.ping s.dock with
  | .ok b => .ok b { s with calls := s.calls ++ [.pingCall] }
  | .error _ => .ok false { s with calls := s.calls ++ [.pingCall] }

/-- `connect`: builds the client (external), then `if _ping(): connected
= True`.  Returns the new value of the `connected` global given its prior
value (initially `False`). -/
def connect (cl : Client σ) (connected : Bool) : M σ Bool :=
  M.bind (ping cl) fun alive =>
  M.pure (if alive then true else connected)

/-- Initial value of the `connected` global. -/
def connectedInit : Bool := false

/-- Modelled from the spec: the command-line dispatch layer of this
repository is not under `src/`; per spec §7, a failed liveness probe at
connect time "must prevent the core from running at all", so the
dispatcher invokes a guarded core operation only when `connected` is
true. -/
def dispatch (cl : Client σ) (connected : Bool) (op : Client σ → St σ → GuardRes σ)
    (s : St σ) : Option (GuardRes σ) :=
  if connected then some (op cl s) else none

/-! ## A concrete deterministic daemon model

The docker daemon itself is external to the module (spec §6); the model
below gives it the standard semantics under the spec's single-writer
assumption (§5): lookups answer from the current state with `NotFound`
when absent, creates register the resource, `start`/`unpause` put a
container in status `running`, `stop` puts it in `exited`, `reload`
reports the current status.  The `shortId` of a created container is
daemon-assigned; the model leaves it `""`. -/

/-- The daemon's record of one container: observed status and short id. -/
structure ContainerInfo where
  status : String
  shortId : String
  deriving DecidableEq, Repr

/-- First-match association-list lookup of a container by name. -/
def lookupC (n : String) : List (String × ContainerInfo) → Option ContainerInfo
  | [] => none
  | (m, i) :: rest => if m = n then some i else lookupC n rest

/-- Set the status of every entry named `n`. -/
def setStatus (n : String) (st : String) :
    List (String × ContainerInfo) → List (String × ContainerInfo)
  | [] => []
  | (m, i) :: rest =>
      (if m = n then (m, { i with status := st }) else (m, i)) :: setStatus n st rest

/-- The daemon's state: existing volumes, networks, locally available
images, and containers with their info. -/
structure DockerState where
  volumes : List String
  networks : List String
  images : List String
  containers : List (String × ContainerInfo)
  deriving DecidableEq, Repr

/-- The deterministic daemon model. -/
def dockerClient : Client DockerState where
  volumesGet v d := if v ∈ d.volumes then .ok d else .error .notFound
  volumesCreate v d := .ok { d with volumes := d.volumes ++ [v] }
  networksGet n d := if n ∈ d.networks then .ok d else .error .notFound
  networksCreate n d := .ok { d with networks := d.networks ++ [n] }
  containersGet n d :=
    match lookupC n d.containers with
    | some _ => .ok d
    | none => .error .notFound
  imagesPull i d := .ok { d with images := d.images ++ [i] }
  containersCreate spec d :=
    .ok { d with containers := d.containers ++ [(spec.name, ⟨"created", ""⟩)] }
  reload n d :=
    match lookupC n d.containers with
    | some i => .ok (i.status, d)
    | none => .error .notFound
  shortId n d := ((lookupC n d.containers).map ContainerInfo.shortId).getD ""
  contStart n d := .ok { d with containers := setStatus n "running" d.containers }
  contStop n d := .ok { d with containers := setStatus n "exited" d.containers }
  contUnpause n d := .ok { d with containers := setStatus n "running" d.containers }
  ping _ := .ok true

/-! ## Derived notions used by the claims -/

/-- The status reached from `st` by the start intent's transition table. -/
def startTransition (st : String) : String :=
  if st ∈ ["restarting", "running"] then st
  else if st ∈ ["paused"] then "running"
  else if st ∈ ["created", "exited", "dead"] then "running"
  else st

/-- The status reached from `st` by the stop intent's transition table. -/
def stopTransition (st : String) : String :=
  if st ∈ ["restarting", "running", "paused"] then "exited"
  else st

/-- Whether a call creates a resource or pulls an image. -/
def Call.isCreateOrPull : Call → Bool
  | .volumesCreate _ => true
  | .networksCreate _ => true
  | .imagesPull _ => true
  | .containersCreate _ => true
  | _ => false

/-- Whether an event is the per-container final status notification. -/
def Event.isCloseStatus : Event → Bool
  | .stepCloseStatus _ => true
  | _ => false

/-- A full `start` run over the deterministic daemon from state `d`, with
empty notification and call traces. -/
def startRun (d : DockerState) : GuardRes DockerState :=
  start dockerClient ⟨d, [], []⟩

/-- `pull-before-create` over a call trace: every container-create call
is preceded (strictly earlier in the trace) by a pull of that container's
declared image. -/
def pullBeforeCreate (L : List Call) : Bool :=
  (List.range L.length).all fun j =>
    match L.getD j .pingCall with
    | .containersCreate spec => (L.take j).contains (.imagesPull spec.image)
    | _ => true

/-! ## Lookup lemmas for the deterministic daemon -/

theorem lookupC_setStatus_self (n st : String) (l : List (String × ContainerInfo)) :
    lookupC n (setStatus n st l) = (lookupC n l).map (fun i => { i with status := st }) := by
  induction l with
  | nil => simp [lookupC, setStatus]
  | cons p rest ih =>
      obtain ⟨pn, pi⟩ := p
      by_cases hp : pn = n
      · subst hp
        simp only [setStatus, if_pos trivial, eq_self_iff_true, if_true]
        simp [lookupC, ih]
      · simp only [setStatus, hp, if_false]
        simp [lookupC, hp, ih]

theorem lookupC_setStatus_other (m n st : String) (hne : m ≠ n)
    (l : List (String × ContainerInfo)) :
    lookupC n (setStatus m st l) = lookupC n l := by
  induction l with
  | nil => simp [setStatus]
  | cons p rest ih =>
      obtain ⟨pn, pi⟩ := p
      by_cases hp : pn = m
      · subst hp
        simp only [setStatus, eq_self_iff_true, if_true]
        have hq : pn ≠ n := hne
        simp [lookupC, hq, ih]
      · simp only [setStatus, hp, if_false]
        simp [lookupC, ih]

theorem lookupC_append_some (n : String) (l₁ l₂ : List (String × ContainerInfo))
    (i : ContainerInfo) (h : lookupC n l₁ = some i) :
    lookupC n (l₁ ++ l₂) = some i := by
  induction l₁ with
  | nil => simp [lookupC] at h
  | cons p rest ih =>
      obtain ⟨pn, pi⟩ := p
      by_cases hp : pn = n
      · subst hp
        simp [lookupC] at h ⊢
        exact h
      · simp [lookupC, hp] at h ⊢
        exact ih h

theorem lookupC_append_none (n : String) (l₁ l₂ : List (String × ContainerInfo))
    (h : lookupC n l₁ = none) :
    lookupC n (l₁ ++ l₂) = lookupC n l₂ := by
  induction l₁ with
  | nil => simp [lookupC]
  | cons p rest ih =>
      obtain ⟨pn, pi⟩ := p
      by_cases hp : pn = n
      · subst hp
        simp [lookupC] at h
      · simp [lookupC, hp] at h ⊢
        exact ih h

/-! ## Proof-side characterization of each step over the deterministic daemon -/


def ensureVolume (v : String) (d : DockerState) : DockerState :=
  if v ∈ d.volumes then d else { d with volumes := d.volumes ++ [v] }

def ensureNetwork (n : String) (d : DockerState) : DockerState :=
  if n ∈ d.networks then d else { d with networks := d.networks ++ [n] }

def ensureContainer (spec : ContainerSpec) (d : DockerState) : DockerState :=
  match lookupC spec.name d.containers with
  | some _ => d
  | none =>
      { d with images := d.images ++ [spec.image]
               containers := d.containers ++ [(spec.name, ⟨"created", ""⟩)] }

def startActs (n : String) (st : String) : List Call :=
  if st ∈ ["restarting", "running"] then []
  else if st ∈ ["paused"] then [.containerUnpause n]
  else if st ∈ ["created", "exited", "dead"] then [.containerStart n]
  else []

def afterStartD (n : String) (st : String) (d : DockerState) : DockerState :=
  if st ∈ ["restarting", "running"] then d
  else if st ∈ ["paused"] then { d with containers := setStatus n "running" d.containers }
  else if st ∈ ["created", "exited", "dead"] then
    { d with containers := setStatus n "running" d.containers }
  else d

def stopActs (n : String) (st : String) : List Call :=
  if st ∈ ["restarting", "running", "paused"] then [.containerStop n] else []

def afterStopD (n : String) (st : String) (d : DockerState) : DockerState :=
  if st ∈ ["restarting", "running", "paused"] then
    { d with containers := setStatus n "exited" d.containers }
  else d

theorem createVolumeStep_eq (d : DockerState) (v : String) (ev : List Event)
    (cs : List Call) :
    createVolumeStep dockerClient v ⟨d, ev, cs⟩ =
      .ok () ⟨ensureVolume v d,
        ev ++ [.stepCreateVolume v,
               if v ∈ d.volumes then .stepCloseExists else .stepCloseCreated],
        cs ++ (if v ∈ d.volumes then [.volumesGet v]
               else [.volumesGet v, .volumesCreate v])⟩ := by
  by_cases hv : v ∈ d.volumes <;>
    simp [createVolumeStep, tryNotFound, M.bind, M.pure, emit, invoke, invokeU,
      dockerClient, Except.map, ensureVolume, hv]

theorem createNetworkStep_eq (d : DockerState) (n : String) (ev : List Event)
    (cs : List Call) :
    createNetworkStep dockerClient n ⟨d, ev, cs⟩ =
      .ok () ⟨ensureNetwork n d,
        ev ++ [.stepCreateNetwork n,
               if n ∈ d.networks then .stepCloseExists else .stepCloseCreated],
        cs ++ (if n ∈ d.networks then [.networksGet n]
               else [.networksGet n, .networksCreate n])⟩ := by
  by_cases hn : n ∈ d.networks <;>
    simp [createNetworkStep, tryNotFound, M.bind, M.pure, emit, invoke, invokeU,
      dockerClient, Except.map, ensureNetwork, hn]

theorem createContainerStep_eq (d : DockerState) (spec : ContainerSpec)
    (ev : List Event) (cs : List Call) :
    createContainerStep dockerClient spec ⟨d, ev, cs⟩ =
      .ok spec.name ⟨ensureContainer spec d,
        ev ++ [.stepCreateContainer spec.name,
               if (lookupC spec.name d.containers).isSome then .stepCloseExists
               else .stepCloseCreated],
        cs ++ (if (lookupC spec.name d.containers).isSome then
                 [.containersGet spec.name]
               else [.containersGet spec.name, .imagesPull spec.image,
                     .containersCreate spec])⟩ := by
  cases hc : lookupC spec.name d.containers <;>
    simp [createContainerStep, tryNotFound, M.bind, M.pure, emit, invoke, invokeU,
      dockerClient, Except.map, ensureContainer, hc]

theorem getContainerStep_eq (d : DockerState) (spec : ContainerSpec)
    (ev : List Event) (cs : List Call) :
    getContainerStep dockerClient spec ⟨d, ev, cs⟩ =
      .ok (if (lookupC spec.name d.containers).isSome then some spec.name else none)
        ⟨d, ev, cs ++ [.containersGet spec.name]⟩ := by
  cases hc : lookupC spec.name d.containers <;>
    simp [getContainerStep, tryNotFound, M.bind, M.pure, emit, invoke, invokeU,
      dockerClient, Except.map, hc]



theorem startContainerStep_eq (d : DockerState) (n : String) (i : ContainerInfo)
    (ev : List Event) (cs : List Call) (h : lookupC n d.containers = some i) :
    startContainerStep dockerClient n ⟨d, ev, cs⟩ =
      .ok () ⟨afterStartD n i.status d,
        ev ++ [.stepStartContainer n, .stepCloseStatus (startTransition i.status)],
        cs ++ [.containerReload n] ++ startActs n i.status ++ [.containerReload n]⟩ := by
  have hlook := lookupC_setStatus_self n "running" d.containers
  rw [h] at hlook
  by_cases h1 : i.status = "restarting" ∨ i.status = "running"
  · simp [startContainerStep, M.bind, M.pure, emit, invoke, invokeU, dockerClient,
      Except.map, afterStartD, startActs, startTransition, h, h1]
  · by_cases h2 : i.status = "paused"
    · simp [startContainerStep, M.bind, M.pure, emit, invoke, invokeU, dockerClient,
        Except.map, afterStartD, startActs, startTransition, h, h1, h2, hlook]
    · by_cases h3 : i.status = "created" ∨ i.status = "exited" ∨ i.status = "dead"
      · simp [startContainerStep, M.bind, M.pure, emit, invoke, invokeU, dockerClient,
          Except.map, afterStartD, startActs, startTransition, h, h1, h2, h3, hlook]
      · simp [startContainerStep, M.bind, M.pure, emit, invoke, invokeU, dockerClient,
          Except.map, afterStartD, startActs, startTransition, h, h1, h2, h3]

theorem startContainerStep_missing (d : DockerState) (n : String)
    (ev : List Event) (cs : List Call) (h : lookupC n d.containers = none) :
    startContainerStep dockerClient n ⟨d, ev, cs⟩ =
      .exn .notFound ⟨d, ev ++ [.stepStartContainer n], cs ++ [.containerReload n]⟩ := by
  simp [startContainerStep, M.bind, M.pure, emit, invoke, invokeU, dockerClient,
    Except.map, h]

theorem stopContainerStep_eq (d : DockerState) (n : String) (i : ContainerInfo)
    (ev : List Event) (cs : List Call) (h : lookupC n d.containers = some i) :
    stopContainerStep dockerClient n ⟨d, ev, cs⟩ =
      .ok () ⟨afterStopD n i.status d,
        ev ++ [.stepStopContainer n, .stepCloseStatus (stopTransition i.status)],
        cs ++ [.containerReload n] ++ stopActs n i.status ++ [.containerReload n]⟩ := by
  have hlook := lookupC_setStatus_self n "exited" d.containers
  rw [h] at hlook
  by_cases h1 : i.status = "restarting" ∨ i.status = "running" ∨ i.status = "paused"
  · simp [stopContainerStep, M.bind, M.pure, emit, invoke, invokeU, dockerClient,
      Except.map, afterStopD, stopActs, stopTransition, h, h1, hlook]
  · by_cases h2 : i.status = "created" ∨ i.status = "exited" ∨ i.status = "dead"
    · simp [stopContainerStep, M.bind, M.pure, emit, invoke, invokeU, dockerClient,
        Except.map, afterStopD, stopActs, stopTransition, h, h1, h2]
    · simp [stopContainerStep, M.bind, M.pure, emit, invoke, invokeU, dockerClient,
        Except.map, afterStopD, stopActs, stopTransition, h, h1, h2]

theorem stopContainerStep_missing (d : DockerState) (n : String)
    (ev : List Event) (cs : List Call) (h : lookupC n d.containers = none) :
    stopContainerStep dockerClient n ⟨d, ev, cs⟩ =
      .exn .notFound ⟨d, ev ++ [.stepStopContainer n], cs ++ [.containerReload n]⟩ := by
  simp [stopContainerStep, M.bind, M.pure, emit, invoke, invokeU, dockerClient,
    Except.map, h]

theorem statusContainerStep_eq (d : DockerState) (containers : List String)
    (name : String) (i : ContainerInfo) (ev : List Event) (cs : List Call)
    (hmem : name ∈ containers) (h : lookupC name d.containers = some i) :
    statusContainerStep dockerClient containers name ⟨d, ev, cs⟩ =
      .ok () ⟨d,
        ev ++ [.statusLine
          { name := name
            statusColor := if i.status = "running" then some "green" else none
            status := some i.status
            id := some i.shortId }],
        cs ++ [.containerReload name]⟩ := by
  by_cases hr : i.status = "running" <;>
    simp [statusContainerStep, M.bind, M.pure, emit, invoke, invokeU, readState,
      dockerClient, Except.map, hmem, h, hr]

theorem statusContainerStep_absent (d : DockerState) (containers : List String)
    (name : String) (ev : List Event) (cs : List Call)
    (hmem : name ∉ containers) :
    statusContainerStep dockerClient containers name ⟨d, ev, cs⟩ =
      .ok () ⟨d,
        ev ++ [.statusLine { name := name, statusColor := none, status := none, id := none }],
        cs⟩ := by
  simp [statusContainerStep, M.bind, M.pure, emit, hmem]




/-- Statuses on which the start intent takes no action. -/
def stableSt (st : String) : Prop := st ∉ ["paused", "created", "exited", "dead"]

theorem stableSt_elim (st : String) (h : stableSt st) :
    st ≠ "paused" ∧ st ≠ "created" ∧ st ≠ "exited" ∧ st ≠ "dead" := by
  unfold stableSt at h
  simp only [List.mem_cons, List.mem_singleton, not_or] at h
  exact ⟨h.1, h.2.1, h.2.2.1, h.2.2.2.1⟩

theorem stableSt_startTransition (st : String) : stableSt (startTransition st) := by
  by_cases h1 : st = "restarting" ∨ st = "running"
  · rcases h1 with h | h <;> subst h <;> unfold stableSt <;> decide
  · by_cases h2 : st = "paused"
    · subst h2; unfold stableSt; decide
    · by_cases h3 : st = "created" ∨ st = "exited" ∨ st = "dead"
      · rcases h3 with h | h | h <;> subst h <;> unfold stableSt <;> decide
      · push_neg at h1 h3
        unfold startTransition stableSt
        simp [h1.1, h1.2, h2, h3.1, h3.2.1, h3.2.2]

theorem afterStartD_stable (n st : String) (d : DockerState) (h : stableSt st) :
    afterStartD n st d = d := by
  obtain ⟨hp, hc, he, hd⟩ := stableSt_elim st h
  unfold afterStartD
  by_cases h1 : st = "restarting" ∨ st = "running" <;> simp [h1, hp, hc, he, hd]

theorem startActs_stable (n st : String) (h : stableSt st) :
    startActs n st = [] := by
  obtain ⟨hp, hc, he, hd⟩ := stableSt_elim st h
  unfold startActs
  by_cases h1 : st = "restarting" ∨ st = "running" <;> simp [h1, hp, hc, he, hd]

theorem startTransition_stable (st : String) (h : stableSt st) :
    startTransition st = st := by
  obtain ⟨hp, hc, he, hd⟩ := stableSt_elim st h
  unfold startTransition
  by_cases h1 : st = "restarting" ∨ st = "running" <;> simp [h1, hp, hc, he, hd]

theorem lookupC_ensure_self (spec : ContainerSpec) (d : DockerState) :
    (lookupC spec.name (ensureContainer spec d).containers).isSome := by
  unfold ensureContainer
  cases hc : lookupC spec.name d.containers with
  | some i => simp [hc]
  | none => simp [lookupC_append_none _ _ _ hc, lookupC]

theorem lookupC_ensure_other (n : String) (spec : ContainerSpec) (d : DockerState)
    (hne : n ≠ spec.name) :
    lookupC n (ensureContainer spec d).containers = lookupC n d.containers := by
  unfold ensureContainer
  cases hc : lookupC spec.name d.containers with
  | some i => rfl
  | none =>
      cases hn : lookupC n d.containers with
      | some i => simp [lookupC_append_some _ _ _ _ hn]
      | none => simp [lookupC_append_none _ _ _ hn, lookupC, Ne.symm hne]

theorem afterStartD_lookup_other (m n st : String) (d : DockerState) (hne : n ≠ m) :
    lookupC n (afterStartD m st d).containers = lookupC n d.containers := by
  unfold afterStartD
  by_cases h1 : st = "restarting" ∨ st = "running"
  · simp [h1]
  · by_cases h2 : st = "paused"
    · simp [h1, h2, lookupC_setStatus_other m n _ (Ne.symm hne)]
    · by_cases h3 : st = "created" ∨ st = "exited" ∨ st = "dead"
      · simp [h1, h2, h3, lookupC_setStatus_other m n _ (Ne.symm hne)]
      · simp [h1, h2, h3]

theorem afterStartD_lookup_self (n : String) (d : DockerState) (i : ContainerInfo)
    (h : lookupC n d.containers = some i) :
    lookupC n (afterStartD n i.status d).containers =
      some ⟨startTransition i.status, i.shortId⟩ := by
  have hself := lookupC_setStatus_self n "running" d.containers
  rw [h] at hself
  by_cases h1 : i.status = "restarting" ∨ i.status = "running"
  · simp [afterStartD, startTransition, h1, h]
  · by_cases h2 : i.status = "paused"
    · simp [afterStartD, startTransition, h1, h2, hself]
    · by_cases h3 : i.status = "created" ∨ i.status = "exited" ∨ i.status = "dead"
      · simp [afterStartD, startTransition, h1, h2, h3, hself]
      · simp [afterStartD, startTransition, h1, h2, h3, h]




/-- The container status reached from `st` when a missing container is
looked at: `afterStartName` applies `afterStartD` at the container's
current status (our runs only reach it when the container exists). -/
def afterStartName (n : String) (d : DockerState) : DockerState :=
  match lookupC n d.containers with
  | some i => afterStartD n i.status d
  | none => d

/-- Daemon state after one full `start` pass from `d`. -/
def runStartState (d : DockerState) : DockerState :=
  afterStartName "tomochain" (afterStartName "metrics"
    (ensureContainer tomochainSpec (ensureContainer metricsSpec
      (ensureNetwork "masternode" (ensureVolume "blockchain_data" d)))))

theorem ensureVolume_volumes_mem (v : String) (d : DockerState) :
    v ∈ (ensureVolume v d).volumes := by
  unfold ensureVolume
  by_cases h : v ∈ d.volumes <;> simp [h]

theorem ensureNetwork_networks_mem (n : String) (d : DockerState) :
    n ∈ (ensureNetwork n d).networks := by
  unfold ensureNetwork
  by_cases h : n ∈ d.networks <;> simp [h]

theorem ensureNetwork_volumes (n : String) (d : DockerState) :
    (ensureNetwork n d).volumes = d.volumes := by
  unfold ensureNetwork
  by_cases h : n ∈ d.networks <;> simp [h]

theorem ensureContainer_volumes (spec : ContainerSpec) (d : DockerState) :
    (ensureContainer spec d).volumes = d.volumes := by
  unfold ensureContainer
  cases lookupC spec.name d.containers <;> simp

theorem ensureContainer_networks (spec : ContainerSpec) (d : DockerState) :
    (ensureContainer spec d).networks = d.networks := by
  unfold ensureContainer
  cases lookupC spec.name d.containers <;> simp

theorem afterStartD_volumes (n st : String) (d : DockerState) :
    (afterStartD n st d).volumes = d.volumes := by
  unfold afterStartD
  by_cases h1 : st = "restarting" ∨ st = "running"
  · simp [h1]
  · by_cases h2 : st = "paused"
    · simp [h1, h2]
    · by_cases h3 : st = "created" ∨ st = "exited" ∨ st = "dead" <;> simp [h1, h2, h3]

theorem afterStartD_networks (n st : String) (d : DockerState) :
    (afterStartD n st d).networks = d.networks := by
  unfold afterStartD
  by_cases h1 : st = "restarting" ∨ st = "running"
  · simp [h1]
  · by_cases h2 : st = "paused"
    · simp [h1, h2]
    · by_cases h3 : st = "created" ∨ st = "exited" ∨ st = "dead" <;> simp [h1, h2, h3]

theorem afterStartName_volumes (n : String) (d : DockerState) :
    (afterStartName n d).volumes = d.volumes := by
  unfold afterStartName
  cases lookupC n d.containers <;> simp [afterStartD_volumes]

theorem afterStartName_networks (n : String) (d : DockerState) :
    (afterStartName n d).networks = d.networks := by
  unfold afterStartName
  cases lookupC n d.containers <;> simp [afterStartD_networks]

theorem afterStartName_lookup_other (m n : String) (d : DockerState) (hne : n ≠ m) :
    lookupC n (afterStartName m d).containers = lookupC n d.containers := by
  unfold afterStartName
  cases lookupC m d.containers <;> simp [afterStartD_lookup_other _ _ _ _ hne]



theorem create_volumes_ex (d : DockerState) (ev : List Event) (cs : List Call) :
    ∃ t c, create_volumes dockerClient ⟨d, ev, cs⟩ =
      .ok () ⟨ensureVolume "blockchain_data" d, ev ++ t, cs ++ c⟩ := by
  by_cases hv : "blockchain_data" ∈ d.volumes
  · exact ⟨[.stepCreateVolume "blockchain_data", .stepCloseExists, .newline],
      [.volumesGet "blockchain_data"],
      by simp [create_volumes, VOLUMES, runSteps, M.bind, M.pure,
        createVolumeStep_eq, emit, ensureVolume, hv]⟩
  · exact ⟨[.stepCreateVolume "blockchain_data", .stepCloseCreated, .newline],
      [.volumesGet "blockchain_data", .volumesCreate "blockchain_data"],
      by simp [create_volumes, VOLUMES, runSteps, M.bind, M.pure,
        createVolumeStep_eq, emit, ensureVolume, hv]⟩

theorem create_networks_ex (d : DockerState) (ev : List Event) (cs : List Call) :
    ∃ t c, create_networks dockerClient ⟨d, ev, cs⟩ =
      .ok () ⟨ensureNetwork "masternode" d, ev ++ t, cs ++ c⟩ := by
  by_cases hn : "masternode" ∈ d.networks
  · exact ⟨[.stepCreateNetwork "masternode", .stepCloseExists, .newline],
      [.networksGet "masternode"],
      by simp [create_networks, NETWORKS, runSteps, M.bind, M.pure,
        createNetworkStep_eq, emit, ensureNetwork, hn]⟩
  · exact ⟨[.stepCreateNetwork "masternode", .stepCloseCreated, .newline],
      [.networksGet "masternode", .networksCreate "masternode"],
      by simp [create_networks, NETWORKS, runSteps, M.bind, M.pure,
        createNetworkStep_eq, emit, ensureNetwork, hn]⟩

theorem create_containers_ex (d : DockerState) (ev : List Event) (cs : List Call) :
    ∃ t c, create_containers dockerClient ⟨d, ev, cs⟩ =
      .ok ["metrics", "tomochain"]
        ⟨ensureContainer tomochainSpec (ensureContainer metricsSpec d), ev ++ t, cs ++ c⟩ := by
  have e1 := fun ev cs => createContainerStep_eq d metricsSpec ev cs
  have e2 := fun ev cs =>
    createContainerStep_eq (ensureContainer metricsSpec d) tomochainSpec ev cs
  refine ⟨[.stepCreateContainer "metrics",
      if (lookupC "metrics" d.containers).isSome then .stepCloseExists else .stepCloseCreated,
      .stepCreateContainer "tomochain",
      if (lookupC "tomochain" (ensureContainer metricsSpec d).containers).isSome then
        .stepCloseExists else .stepCloseCreated],
    (if (lookupC "metrics" d.containers).isSome then [.containersGet "metrics"]
     else [.containersGet "metrics", .imagesPull metricsSpec.image,
           .containersCreate metricsSpec]) ++
    (if (lookupC "tomochain" (ensureContainer metricsSpec d).containers).isSome then
       [.containersGet "tomochain"]
     else [.containersGet "tomochain", .imagesPull tomochainSpec.image,
           .containersCreate tomochainSpec]), ?_⟩
  simp only [create_containers, CONTAINERS, create_containers_from, M.bind, M.pure, e1, e2]
  simp only [metricsSpec, tomochainSpec]
  simp [List.append_assoc]



theorem start_both_ex (d : DockerState) (ev : List Event) (cs : List Call)
    (i_m i_t : ContainerInfo)
    (h_m : lookupC "metrics" d.containers = some i_m)
    (h_t : lookupC "tomochain" d.containers = some i_t) :
    ∃ t c, start_containers dockerClient ["metrics", "tomochain"] ⟨d, ev, cs⟩ =
      .ok () ⟨afterStartName "tomochain" (afterStartName "metrics" d), ev ++ t, cs ++ c⟩ := by
  have hne : ("tomochain" : String) ≠ "metrics" := by decide
  have h_t2 : lookupC "tomochain" (afterStartD "metrics" i_m.status d).containers = some i_t := by
    rw [afterStartD_lookup_other _ _ _ _ hne]
    exact h_t
  have hA : afterStartName "metrics" d = afterStartD "metrics" i_m.status d := by
    unfold afterStartName
    rw [h_m]
  have hB : afterStartName "tomochain" (afterStartD "metrics" i_m.status d) =
      afterStartD "tomochain" i_t.status (afterStartD "metrics" i_m.status d) := by
    unfold afterStartName
    rw [h_t2]
  have e1 := fun ev cs => startContainerStep_eq d "metrics" i_m ev cs h_m
  have e2 := fun ev cs =>
    startContainerStep_eq (afterStartD "metrics" i_m.status d) "tomochain" i_t ev cs h_t2
  refine ⟨[.stepStartContainer "metrics", .stepCloseStatus (startTransition i_m.status),
           .stepStartContainer "tomochain", .stepCloseStatus (startTransition i_t.status)],
    [.containerReload "metrics"] ++ startActs "metrics" i_m.status ++
      [.containerReload "metrics", .containerReload "tomochain"] ++
      startActs "tomochain" i_t.status ++ [.containerReload "tomochain"], ?_⟩
  simp only [start_containers, runSteps, M.bind, M.pure, e1, e2]
  simp [hA, hB, List.append_assoc]



theorem start_inner_run1 (d : DockerState) (ev : List Event) (cs : List Call) :
    ∃ t c, start_inner dockerClient ⟨d, ev, cs⟩ =
      .ok () ⟨runStartState d, ev ++ t, cs ++ c⟩ := by
  obtain ⟨t1, c1, h1⟩ := create_volumes_ex d (ev ++ [.subtitleCreateVolumes]) cs
  obtain ⟨t2, c2, h2⟩ := create_networks_ex (ensureVolume "blockchain_data" d)
    (ev ++ [.subtitleCreateVolumes] ++ t1 ++ [.subtitleCreateNetworks]) (cs ++ c1)
  obtain ⟨t3, c3, h3⟩ := create_containers_ex
    (ensureNetwork "masternode" (ensureVolume "blockchain_data" d))
    (ev ++ [.subtitleCreateVolumes] ++ t1 ++ [.subtitleCreateNetworks] ++ t2 ++
      [.subtitleCreateContainers]) (cs ++ c1 ++ c2)
  set dc := ensureContainer tomochainSpec (ensureContainer metricsSpec
    (ensureNetwork "masternode" (ensureVolume "blockchain_data" d))) with hdc
  have hmm : (lookupC "metrics" dc.containers).isSome := by
    rw [hdc, lookupC_ensure_other "metrics" tomochainSpec _ (by decide)]
    simpa [metricsSpec] using lookupC_ensure_self metricsSpec
      (ensureNetwork "masternode" (ensureVolume "blockchain_data" d))
  have htt : (lookupC "tomochain" dc.containers).isSome := by
    rw [hdc]
    simpa [tomochainSpec] using lookupC_ensure_self tomochainSpec
      (ensureContainer metricsSpec
        (ensureNetwork "masternode" (ensureVolume "blockchain_data" d)))
  obtain ⟨i_m, h_m⟩ := Option.isSome_iff_exists.mp hmm
  obtain ⟨i_t, h_t⟩ := Option.isSome_iff_exists.mp htt
  obtain ⟨t4, c4, h4⟩ := start_both_ex dc
    (ev ++ [.subtitleCreateVolumes] ++ t1 ++ [.subtitleCreateNetworks] ++ t2 ++
      [.subtitleCreateContainers] ++ t3 ++ [.newline]) (cs ++ c1 ++ c2 ++ c3)
    i_m i_t h_m h_t
  refine ⟨[.subtitleCreateVolumes] ++ t1 ++ [.subtitleCreateNetworks] ++ t2 ++
      [.subtitleCreateContainers] ++ t3 ++ [.newline] ++ t4, c1 ++ c2 ++ c3 ++ c4, ?_⟩
  simp only [start_inner, M.bind, M.pure, emit, h1, h2, h3, h4]
  simp only [runStartState, ← hdc]
  simp [List.append_assoc]



theorem ensureVolume_networks (v : String) (d : DockerState) :
    (ensureVolume v d).networks = d.networks := by
  unfold ensureVolume
  by_cases h : v ∈ d.volumes <;> simp [h]

theorem ensureVolume_containers (v : String) (d : DockerState) :
    (ensureVolume v d).containers = d.containers := by
  unfold ensureVolume
  by_cases h : v ∈ d.volumes <;> simp [h]

theorem ensureNetwork_containers (n : String) (d : DockerState) :
    (ensureNetwork n d).containers = d.containers := by
  unfold ensureNetwork
  by_cases h : n ∈ d.networks <;> simp [h]

theorem ensureContainer_of_found (spec : ContainerSpec) (d : DockerState)
    (i : ContainerInfo) (h : lookupC spec.name d.containers = some i) :
    ensureContainer spec d = d := by
  unfold ensureContainer
  rw [h]

theorem afterStartName_lookup_self (n : String) (d : DockerState) (i : ContainerInfo)
    (h : lookupC n d.containers = some i) :
    lookupC n (afterStartName n d).containers =
      some ⟨startTransition i.status, i.shortId⟩ := by
  unfold afterStartName
  rw [h]
  exact afterStartD_lookup_self n d i h

theorem runStartState_volumes_mem (d : DockerState) :
    "blockchain_data" ∈ (runStartState d).volumes := by
  unfold runStartState
  rw [afterStartName_volumes, afterStartName_volumes, ensureContainer_volumes,
    ensureContainer_volumes, ensureNetwork_volumes]
  exact ensureVolume_volumes_mem _ _

theorem runStartState_networks_mem (d : DockerState) :
    "masternode" ∈ (runStartState d).networks := by
  unfold runStartState
  rw [afterStartName_networks, afterStartName_networks, ensureContainer_networks,
    ensureContainer_networks]
  exact ensureNetwork_networks_mem _ _

theorem runStartState_metrics (d : DockerState) :
    ∃ i, lookupC "metrics" (runStartState d).containers = some i ∧ stableSt i.status := by
  unfold runStartState
  set dc := ensureContainer tomochainSpec (ensureContainer metricsSpec
    (ensureNetwork "masternode" (ensureVolume "blockchain_data" d))) with hdc
  have hmm : (lookupC "metrics" dc.containers).isSome := by
    rw [hdc, lookupC_ensure_other "metrics" tomochainSpec _ (by decide)]
    simpa [metricsSpec] using lookupC_ensure_self metricsSpec
      (ensureNetwork "masternode" (ensureVolume "blockchain_data" d))
  obtain ⟨i_m, h_m⟩ := Option.isSome_iff_exists.mp hmm
  refine ⟨⟨startTransition i_m.status, i_m.shortId⟩, ?_, stableSt_startTransition _⟩
  rw [afterStartName_lookup_other "tomochain" "metrics" _ (by decide)]
  exact afterStartName_lookup_self "metrics" dc i_m h_m

theorem runStartState_tomochain (d : DockerState) :
    ∃ i, lookupC "tomochain" (runStartState d).containers = some i ∧ stableSt i.status := by
  unfold runStartState
  set dc := ensureContainer tomochainSpec (ensureContainer metricsSpec
    (ensureNetwork "masternode" (ensureVolume "blockchain_data" d))) with hdc
  have htt : (lookupC "tomochain" dc.containers).isSome := by
    rw [hdc]
    simpa [tomochainSpec] using lookupC_ensure_self tomochainSpec
      (ensureContainer metricsSpec
        (ensureNetwork "masternode" (ensureVolume "blockchain_data" d)))
  obtain ⟨i_t, h_t⟩ := Option.isSome_iff_exists.mp htt
  have h_t2 : lookupC "tomochain" (afterStartName "metrics" dc).containers = some i_t := by
    rw [afterStartName_lookup_other "metrics" "tomochain" _ (by decide)]
    exact h_t
  exact ⟨⟨startTransition i_t.status, i_t.shortId⟩,
    afterStartName_lookup_self "tomochain" _ i_t h_t2, stableSt_startTransition _⟩



theorem start_inner_pass (d : DockerState) (ev : List Event) (cs : List Call)
    (i_m i_t : ContainerInfo)
    (hv : "blockchain_data" ∈ d.volumes) (hn : "masternode" ∈ d.networks)
    (h_m : lookupC "metrics" d.containers = some i_m) (hs_m : stableSt i_m.status)
    (h_t : lookupC "tomochain" d.containers = some i_t) (hs_t : stableSt i_t.status) :
    start_inner dockerClient ⟨d, ev, cs⟩ =
      .ok () ⟨d,
        ev ++ [.subtitleCreateVolumes, .stepCreateVolume "blockchain_data",
          .stepCloseExists, .newline, .subtitleCreateNetworks,
          .stepCreateNetwork "masternode", .stepCloseExists, .newline,
          .subtitleCreateContainers, .stepCreateContainer "metrics", .stepCloseExists,
          .stepCreateContainer "tomochain", .stepCloseExists, .newline,
          .stepStartContainer "metrics", .stepCloseStatus i_m.status,
          .stepStartContainer "tomochain", .stepCloseStatus i_t.status],
        cs ++ [.volumesGet "blockchain_data", .networksGet "masternode",
          .containersGet "metrics", .containersGet "tomochain",
          .containerReload "metrics", .containerReload "metrics",
          .containerReload "tomochain", .containerReload "tomochain"]⟩ := by
  have hev : ensureVolume "blockchain_data" d = d := by
    unfold ensureVolume
    simp [hv]
  have hen : ensureNetwork "masternode" d = d := by
    unfold ensureNetwork
    simp [hn]
  have hecm : ensureContainer metricsSpec d = d :=
    ensureContainer_of_found _ _ i_m (by simpa [metricsSpec] using h_m)
  have hect : ensureContainer tomochainSpec d = d :=
    ensureContainer_of_found _ _ i_t (by simpa [tomochainSpec] using h_t)
  have hadm : afterStartD "metrics" i_m.status d = d := afterStartD_stable _ _ _ hs_m
  have hadt : afterStartD "tomochain" i_t.status d = d := afterStartD_stable _ _ _ hs_t
  have ham : startActs "metrics" i_m.status = [] := startActs_stable _ _ hs_m
  have hat : startActs "tomochain" i_t.status = [] := startActs_stable _ _ hs_t
  have htm : startTransition i_m.status = i_m.status := startTransition_stable _ hs_m
  have htt : startTransition i_t.status = i_t.status := startTransition_stable _ hs_t
  have em := fun ev cs => startContainerStep_eq d "metrics" i_m ev cs h_m
  have et := fun ev cs => startContainerStep_eq d "tomochain" i_t ev cs h_t
  have hnm : metricsSpec.name = "metrics" := rfl
  have hnt : tomochainSpec.name = "tomochain" := rfl
  simp only [start_inner, create_volumes, create_networks, create_containers,
    VOLUMES, NETWORKS, CONTAINERS, start_containers, runSteps, create_containers_from,
    M.bind, M.pure, emit, createVolumeStep_eq, createNetworkStep_eq,
    createContainerStep_eq, hnm, hnt]
  simp [hev, hen, hecm, hect, hv, hn, h_m, h_t, em, et, hadm, hadt, ham, hat, htm, htt,
    List.append_assoc]



/-- C2: running the full `start` operation a second time against the
runtime state left by a completed first run performs zero create
operations (no volume/network/container create, no image pull: the call
trace of the second run is exactly the four lookups and four reloads),
every resource takes the "already exists" branch and every container a
no-action branch, and the final daemon state is identical to the state
after the first run. -/
theorem claim_C2 (d0 : DockerState) :
    (startRun d0).isOk = true ∧
    (startRun ((startRun d0).st.dock)).isOk = true ∧
    (startRun ((startRun d0).st.dock)).st.dock = (startRun d0).st.dock ∧
    (∃ stm stt, (startRun ((startRun d0).st.dock)).st.events =
      [.subtitleCreateVolumes, .stepCreateVolume "blockchain_data", .stepCloseExists,
       .newline, .subtitleCreateNetworks, .stepCreateNetwork "masternode",
       .stepCloseExists, .newline, .subtitleCreateContainers,
       .stepCreateContainer "metrics", .stepCloseExists,
       .stepCreateContainer "tomochain", .stepCloseExists, .newline,
       .stepStartContainer "metrics", .stepCloseStatus stm,
       .stepStartContainer "tomochain", .stepCloseStatus stt]) ∧
    (startRun ((startRun d0).st.dock)).st.calls =
      [.volumesGet "blockchain_data", .networksGet "masternode",
       .containersGet "metrics", .containersGet "tomochain",
       .containerReload "metrics", .containerReload "metrics",
       .containerReload "tomochain", .containerReload "tomochain"] ∧
    ((startRun ((startRun d0).st.dock)).st.calls.countP
      (fun c => c.isCreateOrPull)) = 0 := by
  obtain ⟨t, c, h1⟩ := start_inner_run1 d0 [] []
  have hr1 : startRun d0 = .ok ⟨runStartState d0, t, c⟩ := by
    simp only [startRun, start, apierror, h1, List.nil_append]
  have hdock1 : (startRun d0).st.dock = runStartState d0 := by
    rw [hr1]
    rfl
  obtain ⟨i_m, h_m, hs_m⟩ := runStartState_metrics d0
  obtain ⟨i_t, h_t, hs_t⟩ := runStartState_tomochain d0
  have h2 := start_inner_pass (runStartState d0) [] [] i_m i_t
    (runStartState_volumes_mem d0) (runStartState_networks_mem d0) h_m hs_m h_t hs_t
  have hr2 : startRun (runStartState d0) = .ok ⟨runStartState d0,
      [.subtitleCreateVolumes, .stepCreateVolume "blockchain_data", .stepCloseExists,
       .newline, .subtitleCreateNetworks, .stepCreateNetwork "masternode",
       .stepCloseExists, .newline, .subtitleCreateContainers,
       .stepCreateContainer "metrics", .stepCloseExists,
       .stepCreateContainer "tomochain", .stepCloseExists, .newline,
       .stepStartContainer "metrics", .stepCloseStatus i_m.status,
       .stepStartContainer "tomochain", .stepCloseStatus i_t.status],
      [.volumesGet "blockchain_data", .networksGet "masternode",
       .containersGet "metrics", .containersGet "tomochain",
       .containerReload "metrics", .containerReload "metrics",
       .containerReload "tomochain", .containerReload "tomochain"]⟩ := by
    simp only [startRun, start, apierror, h2]
    simp
  refine ⟨by rw [hr1]; rfl, ?_, ?_, ?_, ?_, ?_⟩
  · rw [hdock1, hr2]
    rfl
  · rw [hdock1, hr2]
    rfl
  · exact ⟨i_m.status, i_t.status, by rw [hdock1, hr2]; rfl⟩
  · rw [hdock1, hr2]
    rfl
  · rw [hdock1, hr2]
    rfl




theorem afterStopD_lookup_self (n : String) (d : DockerState) (i : ContainerInfo)
    (h : lookupC n d.containers = some i) :
    lookupC n (afterStopD n i.status d).containers =
      some ⟨stopTransition i.status, i.shortId⟩ := by
  have hself := lookupC_setStatus_self n "exited" d.containers
  rw [h] at hself
  by_cases h1 : i.status = "restarting" ∨ i.status = "running" ∨ i.status = "paused"
  · simp [afterStopD, stopTransition, h1, hself]
  · simp [afterStopD, stopTransition, h1, h]

theorem start_containers_count (l : List String) (s r : St DockerState)
    (h : start_containers dockerClient l s = .ok () r) :
    r.events.countP (fun e => e.isCloseStatus) =
      s.events.countP (fun e => e.isCloseStatus) + l.length := by
  induction l generalizing s with
  | nil =>
      simp only [start_containers, runSteps, M.pure, Res.ok.injEq] at h
      rw [← h.2]
      simp
  | cons n l ih =>
      cases hc : lookupC n s.dock.containers with
      | some i =>
          have he := startContainerStep_eq s.dock n i s.events s.calls hc
          rw [show (⟨s.dock, s.events, s.calls⟩ : St DockerState) = s from rfl] at he
          simp only [start_containers, runSteps, M.bind] at h
          rw [he] at h
          have hr := ih _ h
          simp only [List.countP_append] at hr
          simp only [hr, List.length_cons]
          simp [Event.isCloseStatus, List.countP_cons]
          omega
      | none =>
          have he := startContainerStep_missing s.dock n s.events s.calls hc
          rw [show (⟨s.dock, s.events, s.calls⟩ : St DockerState) = s from rfl] at he
          simp only [start_containers, runSteps, M.bind] at h
          rw [he] at h
          exact absurd h (by simp)

theorem stop_containers_count (l : List String) (s r : St DockerState)
    (h : stop_containers dockerClient l s = .ok () r) :
    r.events.countP (fun e => e.isCloseStatus) =
      s.events.countP (fun e => e.isCloseStatus) + l.length := by
  induction l generalizing s with
  | nil =>
      simp only [stop_containers, runSteps, M.pure, Res.ok.injEq] at h
      rw [← h.2]
      simp
  | cons n l ih =>
      cases hc : lookupC n s.dock.containers with
      | some i =>
          have he := stopContainerStep_eq s.dock n i s.events s.calls hc
          rw [show (⟨s.dock, s.events, s.calls⟩ : St DockerState) = s from rfl] at he
          simp only [stop_containers, runSteps, M.bind] at h
          rw [he] at h
          have hr := ih _ h
          simp only [List.countP_append] at hr
          simp only [hr, List.length_cons]
          simp [Event.isCloseStatus, List.countP_cons]
          omega
      | none =>
          have he := stopContainerStep_missing s.dock n s.events s.calls hc
          rw [show (⟨s.dock, s.events, s.calls⟩ : St DockerState) = s from rfl] at he
          simp only [stop_containers, runSteps, M.bind] at h
          rw [he] at h
          exact absurd h (by simp)



/-- C1: for a container whose refreshed observed status is one of the six
explicitly handled values, the start intent performs exactly the table's
action (running/restarting: none; paused: unpause; created/exited/dead:
start) and the stop intent exactly its table's action
(restarting/running/paused: stop; created/exited/dead: none).  The call
trace of each intent is exactly the two reloads plus the table action, so
no other runtime action (start, stop, unpause, create, pull) is ever
invoked by either intent. -/
theorem claim_C1 (d : DockerState) (n : String) (i : ContainerInfo)
    (ev : List Event) (cs : List Call)
    (h : lookupC n d.containers = some i) :
    ((i.status = "running" ∨ i.status = "restarting") →
      startContainerStep dockerClient n ⟨d, ev, cs⟩ =
        .ok () ⟨d, ev ++ [.stepStartContainer n, .stepCloseStatus i.status],
          cs ++ [.containerReload n, .containerReload n]⟩) ∧
    (i.status = "paused" →
      startContainerStep dockerClient n ⟨d, ev, cs⟩ =
        .ok () ⟨{ d with containers := setStatus n "running" d.containers },
          ev ++ [.stepStartContainer n, .stepCloseStatus "running"],
          cs ++ [.containerReload n, .containerUnpause n, .containerReload n]⟩) ∧
    ((i.status = "created" ∨ i.status = "exited" ∨ i.status = "dead") →
      startContainerStep dockerClient n ⟨d, ev, cs⟩ =
        .ok () ⟨{ d with containers := setStatus n "running" d.containers },
          ev ++ [.stepStartContainer n, .stepCloseStatus "running"],
          cs ++ [.containerReload n, .containerStart n, .containerReload n]⟩) ∧
    ((i.status = "restarting" ∨ i.status = "running" ∨ i.status = "paused") →
      stopContainerStep dockerClient n ⟨d, ev, cs⟩ =
        .ok () ⟨{ d with containers := setStatus n "exited" d.containers },
          ev ++ [.stepStopContainer n, .stepCloseStatus "exited"],
          cs ++ [.containerReload n, .containerStop n, .containerReload n]⟩) ∧
    ((i.status = "created" ∨ i.status = "exited" ∨ i.status = "dead") →
      stopContainerStep dockerClient n ⟨d, ev, cs⟩ =
        .ok () ⟨d, ev ++ [.stepStopContainer n, .stepCloseStatus i.status],
          cs ++ [.containerReload n, .containerReload n]⟩) := by
  refine ⟨?_, ?_, ?_, ?_, ?_⟩
  · intro hst
    rw [startContainerStep_eq d n i ev cs h]
    rcases hst with hst | hst <;>
      simp [afterStartD, startActs, startTransition, hst]
  · intro hst
    rw [startContainerStep_eq d n i ev cs h]
    simp [afterStartD, startActs, startTransition, hst]
  · intro hst
    rw [startContainerStep_eq d n i ev cs h]
    rcases hst with hst | hst | hst <;>
      simp [afterStartD, startActs, startTransition, hst]
  · intro hst
    rw [stopContainerStep_eq d n i ev cs h]
    rcases hst with hst | hst | hst <;>
      simp [afterStopD, stopActs, stopTransition, hst]
  · intro hst
    rw [stopContainerStep_eq d n i ev cs h]
    rcases hst with hst | hst | hst <;>
      simp [afterStopD, stopActs, stopTransition, hst]

/-- Witness for C1: a container in each handled status, checked on a
concrete one-container daemon. -/
theorem claim_C1_witness :
    startContainerStep dockerClient "c" ⟨⟨[], [], [], [("c", ⟨"exited", "ab"⟩)]⟩, [], []⟩ =
      .ok () ⟨⟨[], [], [], [("c", ⟨"running", "ab"⟩)]⟩,
        [.stepStartContainer "c", .stepCloseStatus "running"],
        [.containerReload "c", .containerStart "c", .containerReload "c"]⟩ := by
  have h := claim_C1 ⟨[], [], [], [("c", ⟨"exited", "ab"⟩)]⟩ "c" ⟨"exited", "ab"⟩ [] []
    (by simp [lookupC])
  have h3 := h.2.2.1 (by simp)
  simpa [setStatus] using h3



/-- C5: for any observed status outside the six explicitly handled ones
(including `removing` and arbitrary strings), both the start intent and
the stop intent take no action on the container — the call trace is just
the two reloads — while still emitting the per-container status
notification. -/
theorem claim_C5 (d : DockerState) (n : String) (i : ContainerInfo)
    (ev : List Event) (cs : List Call)
    (h : lookupC n d.containers = some i)
    (hs : i.status ∉ ["restarting", "running", "paused", "created", "exited", "dead"]) :
    startContainerStep dockerClient n ⟨d, ev, cs⟩ =
      .ok () ⟨d, ev ++ [.stepStartContainer n, .stepCloseStatus i.status],
        cs ++ [.containerReload n, .containerReload n]⟩ ∧
    stopContainerStep dockerClient n ⟨d, ev, cs⟩ =
      .ok () ⟨d, ev ++ [.stepStopContainer n, .stepCloseStatus i.status],
        cs ++ [.containerReload n, .containerReload n]⟩ := by
  simp only [List.mem_cons, List.mem_singleton, not_or] at hs
  obtain ⟨h1, h2, h3, h4, h5, h6, _⟩ := hs
  constructor
  · rw [startContainerStep_eq d n i ev cs h]
    simp [afterStartD, startActs, startTransition, h1, h2, h3, h4, h5, h6]
  · rw [stopContainerStep_eq d n i ev cs h]
    simp [afterStopD, stopActs, stopTransition, h1, h2, h3, h4, h5, h6]

/-- Witness for C5: a container observed in the deliberately unhandled
`removing` status. -/
theorem claim_C5_witness :
    startContainerStep dockerClient "c" ⟨⟨[], [], [], [("c", ⟨"removing", "ab"⟩)]⟩, [], []⟩ =
      .ok () ⟨⟨[], [], [], [("c", ⟨"removing", "ab"⟩)]⟩,
        [.stepStartContainer "c", .stepCloseStatus "removing"],
        [.containerReload "c", .containerReload "c"]⟩ ∧
    stopContainerStep dockerClient "c" ⟨⟨[], [], [], [("c", ⟨"removing", "ab"⟩)]⟩, [], []⟩ =
      .ok () ⟨⟨[], [], [], [("c", ⟨"removing", "ab"⟩)]⟩,
        [.stepStopContainer "c", .stepCloseStatus "removing"],
        [.containerReload "c", .containerReload "c"]⟩ := by
  have h := claim_C5 ⟨[], [], [], [("c", ⟨"removing", "ab"⟩)]⟩ "c" ⟨"removing", "ab"⟩ [] []
    (by simp [lookupC]) (by decide)
  exact h

/-- C7: each container processed by the start or stop intent gets exactly
one final status notification, and the status it carries is the one
re-observed after the chosen action (the post-action daemon state holds
exactly that status for the container), not the pre-action one. -/
theorem claim_C7 :
    (∀ (d : DockerState) (n : String) (i : ContainerInfo) (ev : List Event)
        (cs : List Call), lookupC n d.containers = some i →
      startContainerStep dockerClient n ⟨d, ev, cs⟩ =
        .ok () ⟨afterStartD n i.status d,
          ev ++ [.stepStartContainer n, .stepCloseStatus (startTransition i.status)],
          cs ++ [.containerReload n] ++ startActs n i.status ++ [.containerReload n]⟩ ∧
      lookupC n (afterStartD n i.status d).containers =
        some ⟨startTransition i.status, i.shortId⟩) ∧
    (∀ (d : DockerState) (n : String) (i : ContainerInfo) (ev : List Event)
        (cs : List Call), lookupC n d.containers = some i →
      stopContainerStep dockerClient n ⟨d, ev, cs⟩ =
        .ok () ⟨afterStopD n i.status d,
          ev ++ [.stepStopContainer n, .stepCloseStatus (stopTransition i.status)],
          cs ++ [.containerReload n] ++ stopActs n i.status ++ [.containerReload n]⟩ ∧
      lookupC n (afterStopD n i.status d).containers =
        some ⟨stopTransition i.status, i.shortId⟩) ∧
    (∀ (l : List String) (s r : St DockerState),
      start_containers dockerClient l s = .ok () r →
      r.events.countP (fun e => e.isCloseStatus) =
        s.events.countP (fun e => e.isCloseStatus) + l.length) ∧
    (∀ (l : List String) (s r : St DockerState),
      stop_containers dockerClient l s = .ok () r →
      r.events.countP (fun e => e.isCloseStatus) =
        s.events.countP (fun e => e.isCloseStatus) + l.length) := by
  refine ⟨?_, ?_, ?_, ?_⟩
  · intro d n i ev cs h
    exact ⟨startContainerStep_eq d n i ev cs h, afterStartD_lookup_self n d i h⟩
  · intro d n i ev cs h
    exact ⟨stopContainerStep_eq d n i ev cs h, afterStopD_lookup_self n d i h⟩
  · intro l s r h
    exact start_containers_count l s r h
  · intro l s r h
    exact stop_containers_count l s r h

/-- Witness for C7: a paused container is unpaused by the start intent
and the emitted status is the re-observed post-action `running`, not the
pre-action `paused`; the loop emits exactly one status notification. -/
theorem claim_C7_witness :
    (startContainerStep dockerClient "c" ⟨⟨[], [], [], [("c", ⟨"paused", "ab"⟩)]⟩, [], []⟩ =
      .ok () ⟨⟨[], [], [], [("c", ⟨"running", "ab"⟩)]⟩,
        [.stepStartContainer "c", .stepCloseStatus "running"],
        [.containerReload "c", .containerUnpause "c", .containerReload "c"]⟩) ∧
    ((⟨⟨[], [], [], [("c", ⟨"running", "ab"⟩)]⟩,
        [.stepStartContainer "c", .stepCloseStatus "running"],
        [.containerReload "c", .containerUnpause "c", .containerReload "c"]⟩ : St DockerState)
      |>.events.countP (fun e => e.isCloseStatus)) = 1 := by
  have h := claim_C7
  have h1 := (h.1 ⟨[], [], [], [("c", ⟨"paused", "ab"⟩)]⟩ "c" ⟨"paused", "ab"⟩ [] []
    (by simp [lookupC])).1
  constructor
  · rw [h1]
    simp [afterStartD, startActs, startTransition, setStatus]
  · decide




theorem get_containers_eq (d : DockerState) (ev : List Event) (cs : List Call) :
    get_containers dockerClient ⟨d, ev, cs⟩ =
      .ok ((if (lookupC "metrics" d.containers).isSome then ["metrics"] else []) ++
           (if (lookupC "tomochain" d.containers).isSome then ["tomochain"] else []))
        ⟨d, ev, cs ++ [.containersGet "metrics", .containersGet "tomochain"]⟩ := by
  have hnm : metricsSpec.name = "metrics" := rfl
  have hnt : tomochainSpec.name = "tomochain" := rfl
  cases hm : lookupC "metrics" d.containers <;>
    cases ht : lookupC "tomochain" d.containers <;>
      simp [get_containers, CONTAINERS, get_containers_from, getContainerStep_eq,
        M.bind, M.pure, hnm, hnt, hm, ht]

/-- The status record `_status_containers` produces for one declared
name, as a function of the daemon state. -/
def statusRecordFor (name : String) (d : DockerState) : StatusRecord :=
  match lookupC name d.containers with
  | some i =>
      { name := name
        statusColor := if i.status = "running" then some "green" else none
        status := some i.status
        id := some i.shortId }
  | none => { name := name, statusColor := none, status := none, id := none }

/-- C4: the status operation emits exactly one record per declared
container name, in declaration order, whatever subset of the declared
containers exists on the runtime; a record is green iff the observed
status is exactly `running`; a declared name with no runtime object
yields a name-only record (status and id absent) and the operation still
returns normally. -/
theorem claim_C4 (d : DockerState) :
    (∃ callTrace, status dockerClient ⟨d, [], []⟩ =
      .ok ⟨d, [.statusLine (statusRecordFor "metrics" d),
               .statusLine (statusRecordFor "tomochain" d)], callTrace⟩) ∧
    (∀ name, lookupC name d.containers = none →
      statusRecordFor name d = ⟨name, none, none, none⟩) ∧
    (∀ name i, lookupC name d.containers = some i →
      (((statusRecordFor name d).statusColor = some "green") ↔ i.status = "running") ∧
      (statusRecordFor name d).status = some i.status ∧
      (statusRecordFor name d).id = some i.shortId) := by
  refine ⟨?_, ?_, ?_⟩
  · have hnm : metricsSpec.name = "metrics" := rfl
    have hnt : tomochainSpec.name = "tomochain" := rfl
    cases hm : lookupC "metrics" d.containers with
    | some i_m =>
        cases ht : lookupC "tomochain" d.containers with
        | some i_t =>
            refine ⟨[.containersGet "metrics", .containersGet "tomochain",
              .containerReload "metrics", .containerReload "tomochain"], ?_⟩
            have e1 := fun ev cs => statusContainerStep_eq d ["metrics", "tomochain"]
              "metrics" i_m ev cs (by simp) hm
            have e2 := fun ev cs => statusContainerStep_eq d ["metrics", "tomochain"]
              "tomochain" i_t ev cs (by simp) ht
            simp only [status, apierror, status_inner, status_containers, CONTAINERS,
              List.map, hnm, hnt, runSteps, M.bind, M.pure, get_containers_eq, hm, ht,
              Option.isSome_some, if_true, e1, e2, statusRecordFor]
            simp [e1, e2]
        | none =>
            refine ⟨[.containersGet "metrics", .containersGet "tomochain",
              .containerReload "metrics"], ?_⟩
            have e1 := fun ev cs => statusContainerStep_eq d ["metrics"]
              "metrics" i_m ev cs (by simp) hm
            have e2 := fun ev cs => statusContainerStep_absent d ["metrics"]
              "tomochain" ev cs (by simp)
            simp only [status, apierror, status_inner, status_containers, CONTAINERS,
              List.map, hnm, hnt, runSteps, M.bind, M.pure, get_containers_eq, hm, ht,
              Option.isSome_some, Option.isSome_none, if_true, if_false, e1, e2,
              statusRecordFor]
            simp [e1, e2]
    | none =>
        cases ht : lookupC "tomochain" d.containers with
        | some i_t =>
            refine ⟨[.containersGet "metrics", .containersGet "tomochain",
              .containerReload "tomochain"], ?_⟩
            have e1 := fun ev cs => statusContainerStep_absent d ["tomochain"]
              "metrics" ev cs (by simp)
            have e2 := fun ev cs => statusContainerStep_eq d ["tomochain"]
              "tomochain" i_t ev cs (by simp) ht
            simp only [status, apierror, status_inner, status_containers, CONTAINERS,
              List.map, hnm, hnt, runSteps, M.bind, M.pure, get_containers_eq, hm, ht,
              Option.isSome_some, Option.isSome_none, if_true, if_false, e1, e2,
              statusRecordFor]
            simp [e1, e2]
        | none =>
            refine ⟨[.containersGet "metrics", .containersGet "tomochain"], ?_⟩
            have e1 := fun ev cs => statusContainerStep_absent d ([] : List String)
              "metrics" ev cs (by simp)
            have e2 := fun ev cs => statusContainerStep_absent d ([] : List String)
              "tomochain" ev cs (by simp)
            simp only [status, apierror, status_inner, status_containers, CONTAINERS,
              List.map, hnm, hnt, runSteps, M.bind, M.pure, get_containers_eq, hm, ht,
              Option.isSome_none, if_false, e1, e2, statusRecordFor]
            simp [e1, e2]
  · intro name hn
    simp [statusRecordFor, hn]
  · intro name i hi
    by_cases hr : i.status = "running" <;> simp [statusRecordFor, hi, hr]




/-! ## Generic-client characterization of the provisioning steps -/

theorem createVolumeStep_found {σ : Type} (cl : Client σ) (s : St σ) (v : String)
    (d' : σ) (h : cl.volumesGet v s.dock = .ok d') :
    createVolumeStep cl v s =
      .ok () ⟨d', s.events ++ [.stepCreateVolume v, .stepCloseExists],
        s.calls ++ [.volumesGet v]⟩ := by
  simp [createVolumeStep, tryNotFound, M.bind, M.pure, emit, invoke, invokeU,
    Except.map, h]

theorem createVolumeStep_missing_created {σ : Type} (cl : Client σ) (s : St σ)
    (v : String) (d'' : σ) (hGet : cl.volumesGet v s.dock = .error .notFound)
    (hCr : cl.volumesCreate v s.dock = .ok d'') :
    createVolumeStep cl v s =
      .ok () ⟨d'', s.events ++ [.stepCreateVolume v, .stepCloseCreated],
        s.calls ++ [.volumesGet v, .volumesCreate v]⟩ := by
  simp [createVolumeStep, tryNotFound, M.bind, M.pure, emit, invoke, invokeU,
    Except.map, hGet, hCr, List.append_assoc]

theorem createVolumeStep_get_fails {σ : Type} (cl : Client σ) (s : St σ)
    (v : String) (e : PyExc) (hGet : cl.volumesGet v s.dock = .error e)
    (hne : e ≠ .notFound) :
    createVolumeStep cl v s =
      .exn e ⟨s.dock, s.events ++ [.stepCreateVolume v], s.calls ++ [.volumesGet v]⟩ := by
  cases e with
  | notFound => exact absurd rfl hne
  | apiError =>
      simp [createVolumeStep, tryNotFound, M.bind, M.pure, emit, invoke, invokeU,
        Except.map, hGet]
  | otherExc =>
      simp [createVolumeStep, tryNotFound, M.bind, M.pure, emit, invoke, invokeU,
        Except.map, hGet]

theorem createVolumeStep_create_fails {σ : Type} (cl : Client σ) (s : St σ)
    (v : String) (e : PyExc) (hGet : cl.volumesGet v s.dock = .error .notFound)
    (hCr : cl.volumesCreate v s.dock = .error e) :
    createVolumeStep cl v s =
      .exn e ⟨s.dock, s.events ++ [.stepCreateVolume v],
        s.calls ++ [.volumesGet v, .volumesCreate v]⟩ := by
  simp [createVolumeStep, tryNotFound, M.bind, M.pure, emit, invoke, invokeU,
    Except.map, hGet, hCr, List.append_assoc]

theorem createNetworkStep_found {σ : Type} (cl : Client σ) (s : St σ) (n : String)
    (d' : σ) (h : cl.networksGet n s.dock = .ok d') :
    createNetworkStep cl n s =
      .ok () ⟨d', s.events ++ [.stepCreateNetwork n, .stepCloseExists],
        s.calls ++ [.networksGet n]⟩ := by
  simp [createNetworkStep, tryNotFound, M.bind, M.pure, emit, invoke, invokeU,
    Except.map, h]

theorem createNetworkStep_missing_created {σ : Type} (cl : Client σ) (s : St σ)
    (n : String) (d'' : σ) (hGet : cl.networksGet n s.dock = .error .notFound)
    (hCr : cl.networksCreate n s.dock = .ok d'') :
    createNetworkStep cl n s =
      .ok () ⟨d'', s.events ++ [.stepCreateNetwork n, .stepCloseCreated],
        s.calls ++ [.networksGet n, .networksCreate n]⟩ := by
  simp [createNetworkStep, tryNotFound, M.bind, M.pure, emit, invoke, invokeU,
    Except.map, hGet, hCr, List.append_assoc]

theorem createNetworkStep_get_fails {σ : Type} (cl : Client σ) (s : St σ)
    (n : String) (e : PyExc) (hGet : cl.networksGet n s.dock = .error e)
    (hne : e ≠ .notFound) :
    createNetworkStep cl n s =
      .exn e ⟨s.dock, s.events ++ [.stepCreateNetwork n], s.calls ++ [.networksGet n]⟩ := by
  cases e with
  | notFound => exact absurd rfl hne
  | apiError =>
      simp [createNetworkStep, tryNotFound, M.bind, M.pure, emit, invoke, invokeU,
        Except.map, hGet]
  | otherExc =>
      simp [createNetworkStep, tryNotFound, M.bind, M.pure, emit, invoke, invokeU,
        Except.map, hGet]

theorem createNetworkStep_create_fails {σ : Type} (cl : Client σ) (s : St σ)
    (n : String) (e : PyExc) (hGet : cl.networksGet n s.dock = .error .notFound)
    (hCr : cl.networksCreate n s.dock = .error e) :
    createNetworkStep cl n s =
      .exn e ⟨s.dock, s.events ++ [.stepCreateNetwork n],
        s.calls ++ [.networksGet n, .networksCreate n]⟩ := by
  simp [createNetworkStep, tryNotFound, M.bind, M.pure, emit, invoke, invokeU,
    Except.map, hGet, hCr, List.append_assoc]



/-- C3: for each declared volume and network: a successful lookup issues
no create call and reports "exists"; a `NotFound` lookup issues exactly
one create call with that name and reports "created"; any other failure
of the lookup, and any failure of the create call, propagates uncaught
out of the provisioning step (the loop, and hence the provisioning
function, re-raises it). -/
theorem claim_C3 {σ : Type} (cl : Client σ) (s : St σ) (v : String) :
    (∀ d', cl.volumesGet v s.dock = .ok d' →
      createVolumeStep cl v s =
        .ok () ⟨d', s.events ++ [.stepCreateVolume v, .stepCloseExists],
          s.calls ++ [.volumesGet v]⟩) ∧
    (∀ d'', cl.volumesGet v s.dock = .error .notFound →
      cl.volumesCreate v s.dock = .ok d'' →
      createVolumeStep cl v s =
        .ok () ⟨d'', s.events ++ [.stepCreateVolume v, .stepCloseCreated],
          s.calls ++ [.volumesGet v, .volumesCreate v]⟩) ∧
    (∀ e, cl.volumesGet v s.dock = .error e → e ≠ .notFound →
      createVolumeStep cl v s =
        .exn e ⟨s.dock, s.events ++ [.stepCreateVolume v], s.calls ++ [.volumesGet v]⟩) ∧
    (∀ e, cl.volumesGet v s.dock = .error .notFound →
      cl.volumesCreate v s.dock = .error e →
      createVolumeStep cl v s =
        .exn e ⟨s.dock, s.events ++ [.stepCreateVolume v],
          s.calls ++ [.volumesGet v, .volumesCreate v]⟩) ∧
    (∀ d', cl.networksGet v s.dock = .ok d' →
      createNetworkStep cl v s =
        .ok () ⟨d', s.events ++ [.stepCreateNetwork v, .stepCloseExists],
          s.calls ++ [.networksGet v]⟩) ∧
    (∀ d'', cl.networksGet v s.dock = .error .notFound →
      cl.networksCreate v s.dock = .ok d'' →
      createNetworkStep cl v s =
        .ok () ⟨d'', s.events ++ [.stepCreateNetwork v, .stepCloseCreated],
          s.calls ++ [.networksGet v, .networksCreate v]⟩) ∧
    (∀ e, cl.networksGet v s.dock = .error e → e ≠ .notFound →
      createNetworkStep cl v s =
        .exn e ⟨s.dock, s.events ++ [.stepCreateNetwork v], s.calls ++ [.networksGet v]⟩) ∧
    (∀ e, cl.networksGet v s.dock = .error .notFound →
      cl.networksCreate v s.dock = .error e →
      createNetworkStep cl v s =
        .exn e ⟨s.dock, s.events ++ [.stepCreateNetwork v],
          s.calls ++ [.networksGet v, .networksCreate v]⟩) := by
  exact ⟨fun d' h => createVolumeStep_found cl s v d' h,
    fun d'' hG hC => createVolumeStep_missing_created cl s v d'' hG hC,
    fun e hG hne => createVolumeStep_get_fails cl s v e hG hne,
    fun e hG hC => createVolumeStep_create_fails cl s v e hG hC,
    fun d' h => createNetworkStep_found cl s v d' h,
    fun d'' hG hC => createNetworkStep_missing_created cl s v d'' hG hC,
    fun e hG hne => createNetworkStep_get_fails cl s v e hG hne,
    fun e hG hC => createNetworkStep_create_fails cl s v e hG hC⟩

/-- Witness for C3: the declared volume already exists (lookup succeeds,
no create call) on a concrete daemon state. -/
theorem claim_C3_witness :
    createVolumeStep dockerClient "blockchain_data"
        ⟨⟨["blockchain_data"], [], [], []⟩, [], []⟩ =
      .ok () ⟨⟨["blockchain_data"], [], [], []⟩,
        [.stepCreateVolume "blockchain_data", .stepCloseExists],
        [.volumesGet "blockchain_data"]⟩ := by
  have h := (claim_C3 dockerClient ⟨⟨["blockchain_data"], [], [], []⟩, [], []⟩
    "blockchain_data").1 ⟨["blockchain_data"], [], [], []⟩ (by simp [dockerClient])
  simpa using h



/-! ## Generic-client characterization of the container existence step -/

theorem createContainerStep_found {σ : Type} (cl : Client σ) (s : St σ)
    (spec : ContainerSpec) (d' : σ) (h : cl.containersGet spec.name s.dock = .ok d') :
    createContainerStep cl spec s =
      .ok spec.name ⟨d', s.events ++ [.stepCreateContainer spec.name, .stepCloseExists],
        s.calls ++ [.containersGet spec.name]⟩ := by
  simp [createContainerStep, tryNotFound, M.bind, M.pure, emit, invoke, invokeU,
    Except.map, h]

theorem createContainerStep_get_fails {σ : Type} (cl : Client σ) (s : St σ)
    (spec : ContainerSpec) (e : PyExc)
    (hGet : cl.containersGet spec.name s.dock = .error e) (hne : e ≠ .notFound) :
    createContainerStep cl spec s =
      .exn e ⟨s.dock, s.events ++ [.stepCreateContainer spec.name],
        s.calls ++ [.containersGet spec.name]⟩ := by
  cases e with
  | notFound => exact absurd rfl hne
  | apiError =>
      simp [createContainerStep, tryNotFound, M.bind, M.pure, emit, invoke, invokeU,
        Except.map, hGet]
  | otherExc =>
      simp [createContainerStep, tryNotFound, M.bind, M.pure, emit, invoke, invokeU,
        Except.map, hGet]

theorem createContainerStep_pull_fails {σ : Type} (cl : Client σ) (s : St σ)
    (spec : ContainerSpec) (e : PyExc)
    (hGet : cl.containersGet spec.name s.dock = .error .notFound)
    (hPull : cl.imagesPull spec.image s.dock = .error e) :
    createContainerStep cl spec s =
      .exn e ⟨s.dock, s.events ++ [.stepCreateContainer spec.name],
        s.calls ++ [.containersGet spec.name, .imagesPull spec.image]⟩ := by
  simp [createContainerStep, tryNotFound, M.bind, M.pure, emit, invoke, invokeU,
    Except.map, hGet, hPull, List.append_assoc]

theorem createContainerStep_created {σ : Type} (cl : Client σ) (s : St σ)
    (spec : ContainerSpec) (dp d'' : σ)
    (hGet : cl.containersGet spec.name s.dock = .error .notFound)
    (hPull : cl.imagesPull spec.image s.dock = .ok dp)
    (hCr : cl.containersCreate spec dp = .ok d'') :
    createContainerStep cl spec s =
      .ok spec.name ⟨d'', s.events ++ [.stepCreateContainer spec.name, .stepCloseCreated],
        s.calls ++ [.containersGet spec.name, .imagesPull spec.image,
          .containersCreate spec]⟩ := by
  simp [createContainerStep, tryNotFound, M.bind, M.pure, emit, invoke, invokeU,
    Except.map, hGet, hPull, hCr, List.append_assoc]

theorem createContainerStep_create_fails {σ : Type} (cl : Client σ) (s : St σ)
    (spec : ContainerSpec) (dp : σ) (e : PyExc)
    (hGet : cl.containersGet spec.name s.dock = .error .notFound)
    (hPull : cl.imagesPull spec.image s.dock = .ok dp)
    (hCr : cl.containersCreate spec dp = .error e) :
    createContainerStep cl spec s =
      .exn e ⟨dp, s.events ++ [.stepCreateContainer spec.name],
        s.calls ++ [.containersGet spec.name, .imagesPull spec.image,
          .containersCreate spec]⟩ := by
  simp [createContainerStep, tryNotFound, M.bind, M.pure, emit, invoke, invokeU,
    Except.map, hGet, hPull, hCr, List.append_assoc]



/-- C6: for every declared container that is not found during the
existence phase, the image pull call completes (appears in the call
trace) before the container create call: over any client behaviour, the
call trace of `_create_containers` satisfies `pullBeforeCreate` — a
container create call is always preceded by a pull of that container's
declared image in the same pass. -/
theorem claim_C6 {σ : Type} (cl : Client σ) (d : σ) (ev : List Event) :
    pullBeforeCreate ((create_containers cl ⟨d, ev, []⟩).st.calls) = true := by
  cases hg1 : cl.containersGet metricsSpec.name d with
  | ok d2 =>
      have e1 := fun ev cs => createContainerStep_found cl ⟨d, ev, cs⟩ metricsSpec d2 hg1
      cases hg2 : cl.containersGet tomochainSpec.name d2 with
      | ok d3 =>
          have e2 := fun ev cs =>
            createContainerStep_found cl ⟨d2, ev, cs⟩ tomochainSpec d3 hg2
          simp only [create_containers, CONTAINERS, create_containers_from, M.bind,
            M.pure, e1, e2, Res.st, List.nil_append]
          decide
      | error e =>
          cases e with
          | notFound =>
              cases hp2 : cl.imagesPull tomochainSpec.image d2 with
              | ok dp =>
                  cases hc2 : cl.containersCreate tomochainSpec dp with
                  | ok d3 =>
                      have e2 := fun ev cs => createContainerStep_created cl ⟨d2, ev, cs⟩
                        tomochainSpec dp d3 hg2 hp2 hc2
                      simp only [create_containers, CONTAINERS, create_containers_from,
                        M.bind, M.pure, e1, e2, Res.st, List.nil_append]
                      decide
                  | error e2x =>
                      have e2 := fun ev cs => createContainerStep_create_fails cl
                        ⟨d2, ev, cs⟩ tomochainSpec dp e2x hg2 hp2 hc2
                      simp only [create_containers, CONTAINERS, create_containers_from,
                        M.bind, M.pure, e1, e2, Res.st, List.nil_append]
                      decide
              | error e2x =>
                  have e2 := fun ev cs => createContainerStep_pull_fails cl ⟨d2, ev, cs⟩
                    tomochainSpec e2x hg2 hp2
                  simp only [create_containers, CONTAINERS, create_containers_from,
                    M.bind, M.pure, e1, e2, Res.st, List.nil_append]
                  decide
          | apiError =>
              have e2 := fun ev cs => createContainerStep_get_fails cl ⟨d2, ev, cs⟩
                tomochainSpec .apiError hg2 (by decide)
              simp only [create_containers, CONTAINERS, create_containers_from, M.bind,
                M.pure, e1, e2, Res.st, List.nil_append]
              decide
          | otherExc =>
              have e2 := fun ev cs => createContainerStep_get_fails cl ⟨d2, ev, cs⟩
                tomochainSpec .otherExc hg2 (by decide)
              simp only [create_containers, CONTAINERS, create_containers_from, M.bind,
                M.pure, e1, e2, Res.st, List.nil_append]
              decide
  | error e =>
      cases e with
      | notFound =>
          cases hp1 : cl.imagesPull metricsSpec.image d with
          | ok dp1 =>
              cases hc1 : cl.containersCreate metricsSpec dp1 with
              | ok d2 =>
                  have e1 := fun ev cs => createContainerStep_created cl ⟨d, ev, cs⟩
                    metricsSpec dp1 d2 hg1 hp1 hc1
                  cases hg2 : cl.containersGet tomochainSpec.name d2 with
                  | ok d3 =>
                      have e2 := fun ev cs =>
                        createContainerStep_found cl ⟨d2, ev, cs⟩ tomochainSpec d3 hg2
                      simp only [create_containers, CONTAINERS, create_containers_from,
                        M.bind, M.pure, e1, e2, Res.st, List.nil_append]
                      decide
                  | error e2e =>
                      cases e2e with
                      | notFound =>
                          cases hp2 : cl.imagesPull tomochainSpec.image d2 with
                          | ok dp2 =>
                              cases hc2 : cl.containersCreate tomochainSpec dp2 with
                              | ok d3 =>
                                  have e2 := fun ev cs => createContainerStep_created cl
                                    ⟨d2, ev, cs⟩ tomochainSpec dp2 d3 hg2 hp2 hc2
                                  simp only [create_containers, CONTAINERS,
                                    create_containers_from, M.bind, M.pure, e1, e2,
                                    Res.st, List.nil_append]
                                  decide
                              | error e2x =>
                                  have e2 := fun ev cs =>
                                    createContainerStep_create_fails cl ⟨d2, ev, cs⟩
                                      tomochainSpec dp2 e2x hg2 hp2 hc2
                                  simp only [create_containers, CONTAINERS,
                                    create_containers_from, M.bind, M.pure, e1, e2,
                                    Res.st, List.nil_append]
                                  decide
                          | error e2x =>
                              have e2 := fun ev cs => createContainerStep_pull_fails cl
                                ⟨d2, ev, cs⟩ tomochainSpec e2x hg2 hp2
                              simp only [create_containers, CONTAINERS,
                                create_containers_from, M.bind, M.pure, e1, e2, Res.st,
                                List.nil_append]
                              decide
                      | apiError =>
                          have e2 := fun ev cs => createContainerStep_get_fails cl
                            ⟨d2, ev, cs⟩ tomochainSpec .apiError hg2 (by decide)
                          simp only [create_containers, CONTAINERS,
                            create_containers_from, M.bind, M.pure, e1, e2, Res.st,
                            List.nil_append]
                          decide
                      | otherExc =>
                          have e2 := fun ev cs => createContainerStep_get_fails cl
                            ⟨d2, ev, cs⟩ tomochainSpec .otherExc hg2 (by decide)
                          simp only [create_containers, CONTAINERS,
                            create_containers_from, M.bind, M.pure, e1, e2, Res.st,
                            List.nil_append]
                          decide
              | error e1x =>
                  have e1 := fun ev cs => createContainerStep_create_fails cl ⟨d, ev, cs⟩
                    metricsSpec dp1 e1x hg1 hp1 hc1
                  simp only [create_containers, CONTAINERS, create_containers_from,
                    M.bind, M.pure, e1, Res.st, List.nil_append]
                  decide
          | error e1x =>
              have e1 := fun ev cs => createContainerStep_pull_fails cl ⟨d, ev, cs⟩
                metricsSpec e1x hg1 hp1
              simp only [create_containers, CONTAINERS, create_containers_from, M.bind,
                M.pure, e1, Res.st, List.nil_append]
              decide
      | apiError =>
          have e1 := fun ev cs => createContainerStep_get_fails cl ⟨d, ev, cs⟩
            metricsSpec .apiError hg1 (by decide)
          simp only [create_containers, CONTAINERS, create_containers_from, M.bind,
            M.pure, e1, Res.st, List.nil_append]
          decide
      | otherExc =>
          have e1 := fun ev cs => createContainerStep_get_fails cl ⟨d, ev, cs⟩
            metricsSpec .otherExc hg1 (by decide)
          simp only [create_containers, CONTAINERS, create_containers_from, M.bind,
            M.pure, e1, Res.st, List.nil_append]
          decide




/-! ## The module body never emits the API-error notification itself

`display.error_docker_api` is called only by the `apierror` guard; every
computation of the module body only appends non-error notifications. -/

/-- The computation only appends events, and never the API-error one. -/
def addsNoErr {σ α : Type} (m : M σ α) : Prop :=
  ∀ s : St σ, ∃ t, (m s).st.events = s.events ++ t ∧ Event.errorDockerApi ∉ t

theorem addsNoErr_pure {σ α : Type} (a : α) : addsNoErr (M.pure a : M σ α) :=
  fun _ => ⟨[], by simp [M.pure, Res.st]⟩

theorem addsNoErr_bind {σ α β : Type} (x : M σ α) (f : α → M σ β)
    (hx : addsNoErr x) (hf : ∀ a, addsNoErr (f a)) : addsNoErr (M.bind x f) := by
  intro s
  obtain ⟨t1, ht1, hn1⟩ := hx s
  cases hxs : x s with
  | ok a s' =>
      obtain ⟨t2, ht2, hn2⟩ := hf a s'
      rw [hxs] at ht1
      simp only [Res.st] at ht1
      refine ⟨t1 ++ t2, ?_, by simp [hn1, hn2]⟩
      simp only [M.bind, hxs]
      rw [ht2, ht1, List.append_assoc]
  | exn e s' =>
      rw [hxs] at ht1
      simp only [Res.st] at ht1
      exact ⟨t1, by simp [M.bind, hxs, Res.st, ht1], hn1⟩

theorem addsNoErr_emit {σ : Type} (e : Event) (he : e ≠ .errorDockerApi) :
    addsNoErr (emit e : M σ Unit) := by
  intro s
  exact ⟨[e], by simp [emit, Res.st], by simpa using Ne.symm he⟩

theorem addsNoErr_invoke {σ α : Type} (c : Call) (f : σ → Except PyExc (α × σ)) :
    addsNoErr (invoke c f : M σ α) := by
  intro s
  cases hf : f s.dock with
  | ok p => exact ⟨[], by simp [invoke, hf, Res.st], by simp⟩
  | error e => exact ⟨[], by simp [invoke, hf, Res.st], by simp⟩

theorem addsNoErr_invokeU {σ : Type} (c : Call) (f : σ → Except PyExc σ) :
    addsNoErr (invokeU c f : M σ Unit) :=
  addsNoErr_invoke c _

theorem addsNoErr_readState {σ α : Type} (f : σ → α) :
    addsNoErr (readState f : M σ α) :=
  fun _ => ⟨[], by simp [readState, Res.st]⟩

theorem addsNoErr_tryNotFound {σ α : Type} (body handler : M σ α)
    (hb : addsNoErr body) (hh : addsNoErr handler) :
    addsNoErr (tryNotFound body handler) := by
  intro s
  obtain ⟨t1, ht1, hn1⟩ := hb s
  cases hbs : body s with
  | ok a s' =>
      rw [hbs] at ht1
      simp only [Res.st] at ht1
      exact ⟨t1, by simp [tryNotFound, hbs, Res.st, ht1], hn1⟩
  | exn e s' =>
      rw [hbs] at ht1
      simp only [Res.st] at ht1
      cases e with
      | notFound =>
          obtain ⟨t2, ht2, hn2⟩ := hh s'
          refine ⟨t1 ++ t2, ?_, by simp [hn1, hn2]⟩
          simp only [tryNotFound, hbs]
          rw [ht2, ht1, List.append_assoc]
      | apiError => exact ⟨t1, by simp [tryNotFound, hbs, Res.st, ht1], hn1⟩
      | otherExc => exact ⟨t1, by simp [tryNotFound, hbs, Res.st, ht1], hn1⟩

theorem addsNoErr_runSteps {σ α : Type} (step : α → M σ Unit)
    (h : ∀ x, addsNoErr (step x)) (l : List α) : addsNoErr (runSteps step l) := by
  induction l with
  | nil => exact addsNoErr_pure ()
  | cons x xs ih => exact addsNoErr_bind _ _ (h x) (fun _ => ih)



theorem addsNoErr_ite {σ α : Type} (c : Prop) [Decidable c] (a b : M σ α)
    (ha : addsNoErr a) (hb : addsNoErr b) : addsNoErr (if c then a else b) := by
  by_cases h : c <;> simp [h, ha, hb]

theorem addsNoErr_createVolumeStep {σ : Type} (cl : Client σ) (v : String) :
    addsNoErr (createVolumeStep cl v) :=
  addsNoErr_bind _ _ (addsNoErr_emit _ (by simp)) (fun _ =>
    addsNoErr_tryNotFound _ _
      (addsNoErr_bind _ _ (addsNoErr_invokeU _ _) (fun _ => addsNoErr_emit _ (by simp)))
      (addsNoErr_bind _ _ (addsNoErr_invokeU _ _) (fun _ => addsNoErr_emit _ (by simp))))

theorem addsNoErr_create_volumes {σ : Type} (cl : Client σ) :
    addsNoErr (create_volumes cl) :=
  addsNoErr_bind _ _
    (addsNoErr_runSteps _ (fun v => addsNoErr_createVolumeStep cl v) _)
    (fun _ => addsNoErr_emit _ (by simp))

theorem addsNoErr_createNetworkStep {σ : Type} (cl : Client σ) (n : String) :
    addsNoErr (createNetworkStep cl n) :=
  addsNoErr_bind _ _ (addsNoErr_emit _ (by simp)) (fun _ =>
    addsNoErr_tryNotFound _ _
      (addsNoErr_bind _ _ (addsNoErr_invokeU _ _) (fun _ => addsNoErr_emit _ (by simp)))
      (addsNoErr_bind _ _ (addsNoErr_invokeU _ _) (fun _ => addsNoErr_emit _ (by simp))))

theorem addsNoErr_create_networks {σ : Type} (cl : Client σ) :
    addsNoErr (create_networks cl) :=
  addsNoErr_bind _ _
    (addsNoErr_runSteps _ (fun n => addsNoErr_createNetworkStep cl n) _)
    (fun _ => addsNoErr_emit _ (by simp))

theorem addsNoErr_getContainerStep {σ : Type} (cl : Client σ) (spec : ContainerSpec) :
    addsNoErr (getContainerStep cl spec) :=
  addsNoErr_tryNotFound _ _
    (addsNoErr_bind _ _ (addsNoErr_invokeU _ _) (fun _ => addsNoErr_pure _))
    (addsNoErr_pure _)

theorem addsNoErr_get_containers_from {σ : Type} (cl : Client σ)
    (l : List (String × ContainerSpec)) : addsNoErr (get_containers_from cl l) := by
  induction l with
  | nil => exact addsNoErr_pure _
  | cons p rest ih =>
      exact addsNoErr_bind _ _ (addsNoErr_getContainerStep cl p.2) (fun c? =>
        addsNoErr_bind _ _ ih (fun others => by
          cases c? <;> exact addsNoErr_pure _))

theorem addsNoErr_createContainerStep {σ : Type} (cl : Client σ)
    (spec : ContainerSpec) : addsNoErr (createContainerStep cl spec) :=
  addsNoErr_bind _ _ (addsNoErr_emit _ (by simp)) (fun _ =>
    addsNoErr_tryNotFound _ _
      (addsNoErr_bind _ _ (addsNoErr_invokeU _ _) (fun _ =>
        addsNoErr_bind _ _ (addsNoErr_emit _ (by simp)) (fun _ => addsNoErr_pure _)))
      (addsNoErr_bind _ _ (addsNoErr_invokeU _ _) (fun _ =>
        addsNoErr_bind _ _ (addsNoErr_invokeU _ _) (fun _ =>
          addsNoErr_bind _ _ (addsNoErr_emit _ (by simp)) (fun _ => addsNoErr_pure _)))))

theorem addsNoErr_create_containers_from {σ : Type} (cl : Client σ)
    (l : List (String × ContainerSpec)) : addsNoErr (create_containers_from cl l) := by
  induction l with
  | nil => exact addsNoErr_pure _
  | cons p rest ih =>
      exact addsNoErr_bind _ _ (addsNoErr_createContainerStep cl p.2) (fun c =>
        addsNoErr_bind _ _ ih (fun others => addsNoErr_pure _))

theorem addsNoErr_startContainerStep {σ : Type} (cl : Client σ) (n : String) :
    addsNoErr (startContainerStep cl n) :=
  addsNoErr_bind _ _ (addsNoErr_emit _ (by simp)) (fun _ =>
    addsNoErr_bind _ _ (addsNoErr_invoke _ _) (fun status =>
      addsNoErr_bind _ _
        (addsNoErr_ite _ _ _ (addsNoErr_pure _)
          (addsNoErr_ite _ _ _ (addsNoErr_invokeU _ _)
            (addsNoErr_ite _ _ _ (addsNoErr_invokeU _ _) (addsNoErr_pure _))))
        (fun _ =>
          addsNoErr_bind _ _ (addsNoErr_invoke _ _) (fun status2 =>
            addsNoErr_emit _ (by simp)))))

theorem addsNoErr_start_containers {σ : Type} (cl : Client σ) (l : List String) :
    addsNoErr (start_containers cl l) :=
  addsNoErr_runSteps _ (fun n => addsNoErr_startContainerStep cl n) _

theorem addsNoErr_stopContainerStep {σ : Type} (cl : Client σ) (n : String) :
    addsNoErr (stopContainerStep cl n) :=
  addsNoErr_bind _ _ (addsNoErr_emit _ (by simp)) (fun _ =>
    addsNoErr_bind _ _ (addsNoErr_invoke _ _) (fun status =>
      addsNoErr_bind _ _
        (addsNoErr_ite _ _ _ (addsNoErr_invokeU _ _)
          (addsNoErr_ite _ _ _ (addsNoErr_pure _) (addsNoErr_pure _)))
        (fun _ =>
          addsNoErr_bind _ _ (addsNoErr_invoke _ _) (fun status2 =>
            addsNoErr_emit _ (by simp)))))

theorem addsNoErr_stop_containers {σ : Type} (cl : Client σ) (l : List String) :
    addsNoErr (stop_containers cl l) :=
  addsNoErr_runSteps _ (fun n => addsNoErr_stopContainerStep cl n) _

theorem addsNoErr_statusContainerStep {σ : Type} (cl : Client σ)
    (containers : List String) (name : String) :
    addsNoErr (statusContainerStep cl containers name) :=
  addsNoErr_ite _ _ _
    (addsNoErr_bind _ _ (addsNoErr_invoke _ _) (fun status =>
      addsNoErr_bind _ _ (addsNoErr_readState _) (fun sid =>
        addsNoErr_emit _ (by simp))))
    (addsNoErr_emit _ (by simp))

theorem addsNoErr_status_containers {σ : Type} (cl : Client σ) (l : List String) :
    addsNoErr (status_containers cl l) :=
  addsNoErr_runSteps _ (fun n => addsNoErr_statusContainerStep cl l n) _

theorem addsNoErr_start_inner {σ : Type} (cl : Client σ) :
    addsNoErr (start_inner cl) :=
  addsNoErr_bind _ _ (addsNoErr_emit _ (by simp)) (fun _ =>
    addsNoErr_bind _ _ (addsNoErr_create_volumes cl) (fun _ =>
      addsNoErr_bind _ _ (addsNoErr_emit _ (by simp)) (fun _ =>
        addsNoErr_bind _ _ (addsNoErr_create_networks cl) (fun _ =>
          addsNoErr_bind _ _ (addsNoErr_emit _ (by simp)) (fun _ =>
            addsNoErr_bind _ _ (addsNoErr_create_containers_from cl _) (fun containers =>
              addsNoErr_bind _ _ (addsNoErr_emit _ (by simp)) (fun _ =>
                addsNoErr_start_containers cl containers)))))))

theorem addsNoErr_stop_inner {σ : Type} (cl : Client σ) :
    addsNoErr (stop_inner cl) :=
  addsNoErr_bind _ _ (addsNoErr_get_containers_from cl _) (fun containers =>
    addsNoErr_stop_containers cl containers)

theorem addsNoErr_status_inner {σ : Type} (cl : Client σ) :
    addsNoErr (status_inner cl) :=
  addsNoErr_bind _ _ (addsNoErr_get_containers_from cl _) (fun containers =>
    addsNoErr_status_containers cl containers)



/-- C8: when an API error is raised inside a guarded operation, the guard
emits exactly one user-facing failure notification and terminates with
the state reached at the failure point (no further calls, no rollback);
a `NotFound` arising in a create-if-missing branch is handled locally
(the step returns normally with the "created" report) and never surfaces
as an error notification. -/
theorem claim_C8 :
    (∀ (σ : Type) (f : M σ Unit) (s : St σ) (e : PyExc) (s' : St σ),
      f s = .exn e s' → e.isAPIError = true →
      apierror f s = .exited ⟨s'.dock, s'.events ++ [.errorDockerApi], s'.calls⟩) ∧
    (∀ (σ : Type) (cl : Client σ) (d : σ) (cs : List Call) (s' : St σ),
      start cl ⟨d, [], cs⟩ = .exited s' → s'.events.count .errorDockerApi = 1) ∧
    (∀ (σ : Type) (cl : Client σ) (d : σ) (cs : List Call) (s' : St σ),
      stop cl ⟨d, [], cs⟩ = .exited s' → s'.events.count .errorDockerApi = 1) ∧
    (∀ (σ : Type) (cl : Client σ) (d : σ) (cs : List Call) (s' : St σ),
      status cl ⟨d, [], cs⟩ = .exited s' → s'.events.count .errorDockerApi = 1) ∧
    (∀ (σ : Type) (cl : Client σ) (s : St σ) (v : String) (d'' : σ),
      cl.volumesGet v s.dock = .error .notFound → cl.volumesCreate v s.dock = .ok d'' →
      createVolumeStep cl v s =
        .ok () ⟨d'', s.events ++ [.stepCreateVolume v, .stepCloseCreated],
          s.calls ++ [.volumesGet v, .volumesCreate v]⟩) := by
  have count1 : ∀ (σ : Type) (g : M σ Unit), addsNoErr g →
      ∀ (d : σ) (cs : List Call) (s' : St σ),
      apierror g ⟨d, [], cs⟩ = .exited s' → s'.events.count .errorDockerApi = 1 := by
    intro σ g hg d cs s' h
    obtain ⟨t, ht, hn⟩ := hg ⟨d, [], cs⟩
    cases hx : g ⟨d, [], cs⟩ with
    | ok a s2 =>
        simp only [apierror, hx] at h
        exact GuardRes.noConfusion h
    | exn e s2 =>
        rw [hx] at ht
        simp only [Res.st] at ht
        simp only [apierror, hx] at h
        by_cases ha : e.isAPIError
        · rw [if_pos ha] at h
          cases h
          simp only [ht, List.nil_append, List.count_append]
          rw [List.count_eq_zero.mpr hn]
          rfl
        · rw [if_neg ha] at h
          cases h
  refine ⟨?_, ?_, ?_, ?_, ?_⟩
  · intro σ f s e s' h ha
    simp only [apierror, h, ha, if_true]
  · intro σ cl d cs s' h
    exact count1 σ (start_inner cl) (addsNoErr_start_inner cl) d cs s' h
  · intro σ cl d cs s' h
    exact count1 σ (stop_inner cl) (addsNoErr_stop_inner cl) d cs s' h
  · intro σ cl d cs s' h
    exact count1 σ (status_inner cl) (addsNoErr_status_inner cl) d cs s' h
  · intro σ cl s v d'' hG hC
    exact createVolumeStep_missing_created cl s v d'' hG hC

/-- A client whose volume lookup always fails with a (non-NotFound) API
error: used to witness the failure-guard claims. -/
def apiFailClient : Client DockerState :=
  { dockerClient with volumesGet := fun _ _ => .error .apiError }

/-- Witness for C8: a guarded `start` against a daemon whose volume
lookup raises `APIError` terminates with exactly the one error
notification appended at the failure point. -/
theorem claim_C8_witness :
    start apiFailClient ⟨⟨[], [], [], []⟩, [], []⟩ =
      .exited ⟨⟨[], [], [], []⟩,
        [.subtitleCreateVolumes, .stepCreateVolume "blockchain_data", .errorDockerApi],
        [.volumesGet "blockchain_data"]⟩ ∧
    ([Event.subtitleCreateVolumes, Event.stepCreateVolume "blockchain_data",
      Event.errorDockerApi].count Event.errorDockerApi) = 1 := by
  have h1 := claim_C8.1 DockerState (start_inner apiFailClient) ⟨⟨[], [], [], []⟩, [], []⟩
    .apiError ⟨⟨[], [], [], []⟩,
      [.subtitleCreateVolumes, .stepCreateVolume "blockchain_data"],
      [.volumesGet "blockchain_data"]⟩ rfl rfl
  exact ⟨h1, by decide⟩

/-- C10: the guard intercepts only the `APIError` exception type; any
other exception raised inside a guarded operation propagates to the
caller unhandled, with the state (and hence the notification stream)
unchanged from the failure point — no failure notification is emitted. -/
theorem claim_C10 :
    (∀ (σ : Type) (f : M σ Unit) (s : St σ) (e : PyExc) (s' : St σ),
      f s = .exn e s' → e.isAPIError = false → apierror f s = .raised e s') ∧
    (∀ (σ : Type) (f : M σ Unit) (s : St σ) (s'' : St σ),
      apierror f s = .exited s'' →
      ∃ e s', f s = .exn e s' ∧ e.isAPIError = true) := by
  constructor
  · intro σ f s e s' h ha
    simp only [apierror, h, ha, Bool.false_eq_true, if_false]
  · intro σ f s s'' h
    cases hx : f s with
    | ok a s2 =>
        simp only [apierror, hx] at h
        exact GuardRes.noConfusion h
    | exn e s2 =>
        simp only [apierror, hx] at h
        by_cases ha : e.isAPIError
        · exact ⟨e, s2, rfl, ha⟩
        · rw [if_neg ha] at h
          cases h

/-- Witness for C10: a non-API exception raised by the wrapped body
propagates out of the guard unchanged. -/
theorem claim_C10_witness :
    apierror ((fun s => Res.exn PyExc.otherExc s) : M DockerState Unit)
        ⟨⟨[], [], [], []⟩, [], []⟩ =
      .raised .otherExc ⟨⟨[], [], [], []⟩, [], []⟩ := by
  exact claim_C10.1 DockerState ((fun s => Res.exn PyExc.otherExc s) : M DockerState Unit)
    ⟨⟨[], [], [], []⟩, [], []⟩ .otherExc ⟨⟨[], [], [], []⟩, [], []⟩ rfl rfl

/-- C9: `connect` performs exactly one liveness probe (one `ping` call,
no reconciliation call, no notification) before anything else; if the
probe raises or returns false, `connected` stays false, and the
dispatch layer (modelled from the spec) then refuses to run any core
operation at all. -/
theorem claim_C9 :
    (∀ (σ : Type) (cl : Client σ) (s : St σ) (conn : Bool), ∃ b,
      connect cl conn s = .ok b ⟨s.dock, s.events, s.calls ++ [.pingCall]⟩) ∧
    (∀ (σ : Type) (cl : Client σ) (s : St σ),
      (cl.ping s.dock = .ok false ∨ ∃ e, cl.ping s.dock = .error e) →
      connect cl connectedInit s = .ok false ⟨s.dock, s.events, s.calls ++ [.pingCall]⟩) ∧
    (∀ (σ : Type) (cl : Client σ) (op : Client σ → St σ → GuardRes σ) (s : St σ),
      dispatch cl false op s = none) := by
  refine ⟨?_, ?_, ?_⟩
  · intro σ cl s conn
    cases hp : cl.ping s.dock with
    | ok b =>
        refine ⟨if b then true else conn, ?_⟩
        cases b <;> simp [connect, ping, M.bind, M.pure, hp]
    | error e =>
        refine ⟨conn, ?_⟩
        simp [connect, ping, M.bind, M.pure, hp]
  · intro σ cl s h
    rcases h with h | ⟨e, h⟩ <;>
      simp [connect, connectedInit, ping, M.bind, M.pure, h]
  · intro σ cl op s
    simp [dispatch]

/-- A client whose daemon is unreachable: `ping` raises. -/
def deadClient : Client DockerState :=
  { dockerClient with ping := fun _ => .error .apiError }

/-- Witness for C9: an unreachable daemon leaves `connected` false and
the dispatcher runs no core operation. -/
theorem claim_C9_witness :
    connect deadClient connectedInit ⟨⟨[], [], [], []⟩, [], []⟩ =
      .ok false ⟨⟨[], [], [], []⟩, [], [.pingCall]⟩ ∧
    dispatch deadClient false start ⟨⟨[], [], [], []⟩, [], []⟩ = none := by
  constructor
  · exact claim_C9.2.1 DockerState deadClient ⟨⟨[], [], [], []⟩, [], []⟩
      (Or.inr ⟨.apiError, rfl⟩)
  · exact claim_C9.2.2 DockerState deadClient start ⟨⟨[], [], [], []⟩, [], []⟩


end Tmn
